import Mathlib

/-!
Shallow embedding of the sand-sim falling-material cellular automaton
(`src/main.rs`) and verification of the frozen claims about it.

Modelling conventions:
* the grid is a `List (List Cell)` indexed `[x][y]`, mirroring the
  source's `Vec<Vec<Cell>>`; the `WIDTH`/`HEIGHT` constants of the source
  are lifted to explicit parameters `W H` so that the update algorithm can
  be stated on the small grids used by the spec's own test scenarios (the
  source instantiates `W = 400`, `H = 300`);
* `f32` velocities and probability rolls are embedded as `ℚ`; the casts
  `as usize` / `as u8` become explicit floor/clamp helpers;
* the shared `fastrand::Rng` is an abstract single stream: three oracle
  tapes (`ℚ` rolls, booleans, naturals) read at a common cursor that every
  draw advances, so draw order is preserved and claims quantify over all
  possible outcomes;
* movement functions additionally return a log of `swap_cells` events
  (source/destination coordinates plus the two pre-swap cells); the log is
  pure instrumentation and does not influence the computed grid.
-/

namespace SandSim

inductive CellType
  | Air
  | Sand
  | Water
  | Wood
  | Fire
  | Smoke
  | Steam
deriving DecidableEq, Repr

abbrev Color := ℕ × ℕ × ℕ

structure Cell where
  ty : CellType
  moved : Bool
  velocity : ℚ
  lifetime : ℕ
  color : Color
deriving DecidableEq, Repr

abbrev Grid := List (List Cell)

/-- Abstract model of the shared `fastrand::Rng` stream: oracle tapes read
at a shared cursor `k`; every draw advances the cursor by one. -/
structure Rng where
  fs : ℕ → ℚ
  bs : ℕ → Bool
  us : ℕ → ℕ
  k : ℕ

def Rng.f (r : Rng) : ℚ × Rng := (r.fs r.k, { r with k := r.k + 1 })

def Rng.flip (r : Rng) : Bool × Rng := (r.bs r.k, { r with k := r.k + 1 })

def Rng.usize (r : Rng) (n : ℕ) : ℕ × Rng := (r.us r.k % n, { r with k := r.k + 1 })

def Rng.advance (r : Rng) (n : ℕ) : Rng := { r with k := r.k + n }

/-!
Executable rational arithmetic: the library's `Rat.add`, `Rat.mul`,
`Rat.sub` and `Rat.inv` are `@[irreducible]`, which blocks kernel
evaluation (`decide`) of concrete runs, so the embedding uses wrappers
built on `Rat.divInt` (which the kernel does evaluate). Bridge lemmas
below prove each wrapper equal to the standard operation.
-/

def qAdd (a b : ℚ) : ℚ :=
  Rat.divInt (a.num * (b.den : ℤ) + b.num * (a.den : ℤ)) ((a.den : ℤ) * (b.den : ℤ))

def qSub (a b : ℚ) : ℚ :=
  Rat.divInt (a.num * (b.den : ℤ) - b.num * (a.den : ℤ)) ((a.den : ℤ) * (b.den : ℤ))

def qMul (a b : ℚ) : ℚ := Rat.divInt (a.num * b.num) ((a.den : ℤ) * (b.den : ℤ))

def qHalf (a : ℚ) : ℚ := Rat.divInt a.num (2 * (a.den : ℤ))

/-- `f32::min` of the source: the smaller argument. -/
def qMin (a b : ℚ) : ℚ := if a < b then a else b

theorem qAdd_eq (a b : ℚ) : qAdd a b = a + b := by
  have ha : ((a.den : ℚ)) ≠ 0 := by
    exact_mod_cast a.den_nz
  have hb : ((b.den : ℚ)) ≠ 0 := by
    exact_mod_cast b.den_nz
  rw [qAdd, Rat.divInt_eq_div]
  push_cast
  conv_rhs => rw [← Rat.num_div_den a, ← Rat.num_div_den b]
  rw [div_add_div _ _ ha hb]
  ring_nf

theorem qSub_eq (a b : ℚ) : qSub a b = a - b := by
  have ha : ((a.den : ℚ)) ≠ 0 := by
    exact_mod_cast a.den_nz
  have hb : ((b.den : ℚ)) ≠ 0 := by
    exact_mod_cast b.den_nz
  rw [qSub, Rat.divInt_eq_div]
  push_cast
  conv_rhs => rw [← Rat.num_div_den a, ← Rat.num_div_den b]
  rw [div_sub_div _ _ ha hb]
  ring_nf

theorem qMul_eq (a b : ℚ) : qMul a b = a * b := by
  have ha : ((a.den : ℚ)) ≠ 0 := by
    exact_mod_cast a.den_nz
  have hb : ((b.den : ℚ)) ≠ 0 := by
    exact_mod_cast b.den_nz
  rw [qMul, Rat.divInt_eq_div]
  push_cast
  conv_rhs => rw [← Rat.num_div_den a, ← Rat.num_div_den b]
  rw [div_mul_div_comm]

theorem qHalf_eq (a : ℚ) : qHalf a = a / 2 := by
  have ha : ((a.den : ℚ)) ≠ 0 := by
    exact_mod_cast a.den_nz
  rw [qHalf, Rat.divInt_eq_div]
  push_cast
  conv_rhs => rw [← Rat.num_div_den a]
  rw [div_div]
  ring_nf

theorem qMin_eq (a b : ℚ) : qMin a b = min a b := by
  rw [qMin, min_def]
  rcases lt_trichotomy a b with h | h | h
  · rw [if_pos h, if_pos h.le]
  · simp [h]
  · rw [if_neg (not_lt.2 h.le), if_neg (not_le.2 h)]

-- Constants of the source (`f32` constants as exact rationals).

def ACCELERATION : ℚ := Rat.divInt 1 5

def MAX_VELOCITY : ℚ := 10

def SMOKE_MAX_VELOCITY : ℚ := 2

def SMOKE_ACCELERATION : ℚ := Rat.divInt 1 10

def STEAM_MAX_VELOCITY : ℚ := 2

def STEAM_ACCELERATION : ℚ := Rat.divInt 1 10

def SMOKE_LIFETIME : ℕ := 100

def STEAM_LIFETIME : ℕ := 50

def AIR_COLOR : Color := (0, 0, 0)

def SAND_COLORS : List Color :=
  [(0xf6, 0xd7, 0xb0), (0xf2, 0xd2, 0xa9), (0xec, 0xcc, 0xa2), (0xe7, 0xc4, 0x96)]

def WATER_COLORS : List Color :=
  [(0x18, 0x56, 0xdc), (0x1f, 0x59, 0xd6), (0x25, 0x5b, 0xd0), (0x27, 0x5c, 0xcd)]

def WOOD_COLORS : List Color :=
  [(0x77, 0x4f, 0x3c), (0x71, 0x4b, 0x39), (0x6b, 0x47, 0x36), (0x65, 0x43, 0x33)]

def FIRE_COLORS : List Color :=
  [(0xc3, 0x3e, 0x05), (0xc3, 0x3e, 0x05), (0xc2, 0x34, 0x05), (0xc2, 0x34, 0x05),
   (0xf9, 0x61, 0x1f), (0xf0, 0xa1, 0x2b)]

def SMOKE_COLOR_LIGHT : Color := (0x47, 0x47, 0x47)

def SMOKE_COLOR_DARK : Color := (0, 0, 0)

def STEAM_COLOR_LIGHT : Color := (0xf5, 0xf5, 0xf5)

def STEAM_COLOR_DARK : Color := (0, 0, 0)

def cell_type_lifetime : CellType → ℕ
  | CellType.Smoke => SMOKE_LIFETIME
  | CellType.Steam => STEAM_LIFETIME
  | _ => 0

/-- `cell_type_color_random`: note that for `Air`, `Smoke` and `Steam` the
source returns a constant without consulting the rng, so no draw happens. -/
def cell_type_color_random (cell : Cell) (r : Rng) : Color × Rng :=
  match cell.ty with
  | CellType.Sand =>
    let (i, r1) := r.usize SAND_COLORS.length
    (SAND_COLORS.getD i AIR_COLOR, r1)
  | CellType.Water =>
    let (i, r1) := r.usize WATER_COLORS.length
    (WATER_COLORS.getD i AIR_COLOR, r1)
  | CellType.Air => (AIR_COLOR, r)
  | CellType.Wood =>
    let (i, r1) := r.usize WOOD_COLORS.length
    (WOOD_COLORS.getD i AIR_COLOR, r1)
  | CellType.Fire =>
    let (i, r1) := r.usize FIRE_COLORS.length
    (FIRE_COLORS.getD i AIR_COLOR, r1)
  | CellType.Smoke => (SMOKE_COLOR_LIGHT, r)
  | CellType.Steam => (STEAM_COLOR_LIGHT, r)

/-- The partially initialized cell built by `Cell::from` before the color
is sampled. -/
def Cell.base (ty : CellType) : Cell :=
  { ty := ty, moved := false, velocity := 1, lifetime := cell_type_lifetime ty,
    color := (0, 0, 0) }

/-- `Cell::from` (`from` is a reserved word in Lean, hence `fromType`). -/
def Cell.fromType (ty : CellType) (r : Rng) : Cell × Rng :=
  let (c, r1) := cell_type_color_random (Cell.base ty) r
  ({ Cell.base ty with color := c }, r1)

-- Grid access helpers; the source indexes `cells[x][y]` after explicit
-- bounds checks, so out-of-range reads return a default and out-of-range
-- writes are no-ops.

def cellAt (g : Grid) (x y : ℕ) : Cell := (g.getD x []).getD y (Cell.base CellType.Air)

def setCellAt (g : Grid) (x y : ℕ) (c : Cell) : Grid := g.set x ((g.getD x []).set y c)

def modifyCellAt (g : Grid) (x y : ℕ) (f : Cell → Cell) : Grid :=
  setCellAt g x y (f (cellAt g x y))

def in_bounds_bottom (H : ℕ) (y : ℕ) : Bool := decide (y < H)

def in_bounds_right (W : ℕ) (x : ℕ) : Bool := decide (x < W)

def in_bounds_top (y : ℤ) : Bool := decide (0 ≤ y)

def in_bounds_left (x : ℤ) : Bool := decide (0 ≤ x)

def in_bounds (W H : ℕ) (x y : ℤ) : Bool :=
  in_bounds_left x && in_bounds_top y && in_bounds_bottom H y.toNat && in_bounds_right W x.toNat

def is_empty (g : Grid) (x y : ℕ) (empty_types : List CellType) : Bool :=
  decide ((cellAt g x y).ty ∈ empty_types)

/-- `v as usize` on a nonnegative `f32`: truncation to a natural number
(`num / den` rounds toward zero on the nonnegative values this is used
with, agreeing with the floor). -/
def ratToUsize (q : ℚ) : ℕ := (q.num / (q.den : ℤ)).toNat

/-- `v as u8`: saturating truncation to `0..=255`. -/
def ratToU8 (q : ℚ) : ℕ := min 255 (q.num / (q.den : ℤ)).toNat

def interpolate_color (color_1 color_2 : Color) (factor : ℚ) : Color :=
  let rd : ℚ := qSub (color_1.1 : ℚ) (color_2.1 : ℚ)
  let gd : ℚ := qSub (color_1.2.1 : ℚ) (color_2.2.1 : ℚ)
  let bd : ℚ := qSub (color_1.2.2 : ℚ) (color_2.2.2 : ℚ)
  (ratToU8 (qAdd (qMul rd factor) (color_2.1 : ℚ)),
   ratToU8 (qAdd (qMul gd factor) (color_2.2.1 : ℚ)),
   ratToU8 (qAdd (qMul bd factor) (color_2.2.2 : ℚ)))

/-- `furthest_by_vector`: walk `i = 1 ..= movement_magnitude + 1`, keeping
the latest in-bounds step whose material is in `empty_types`; deliberately
no break on a blocking cell. -/
def furthest_by_vector (W H : ℕ) (g : Grid) (cell_pos : ℕ × ℕ) (movement_magnitude : ℕ)
    (empty_types : List CellType) (direction : ℤ × ℤ) : Option (ℕ × ℕ) :=
  (List.range' 1 (movement_magnitude + 1)).foldl
    (fun (closest : Option (ℕ × ℕ)) (i : ℕ) =>
      let cx : ℤ := (cell_pos.1 : ℤ) + direction.1 * (i : ℤ)
      let cy : ℤ := (cell_pos.2 : ℤ) + direction.2 * (i : ℤ)
      if in_bounds W H cx cy && is_empty g cx.toNat cy.toNat empty_types then
        some (cx.toNat, cy.toNat)
      else closest)
    none

def swap_cells (g : Grid) (cell_1_pos cell_2_pos : ℕ × ℕ) : Grid :=
  let temp := cellAt g cell_1_pos.1 cell_1_pos.2
  let g1 := setCellAt g cell_1_pos.1 cell_1_pos.2 (cellAt g cell_2_pos.1 cell_2_pos.2)
  let g2 := setCellAt g1 cell_2_pos.1 cell_2_pos.2 temp
  let g3 := modifyCellAt g2 cell_1_pos.1 cell_1_pos.2 (fun c => { c with moved := false })
  modifyCellAt g3 cell_2_pos.1 cell_2_pos.2 (fun c => { c with moved := true })

def spread_to_cell (g : Grid) (cell_1_pos cell_2_pos : ℕ × ℕ) : Grid :=
  let g1 := setCellAt g cell_2_pos.1 cell_2_pos.2 (cellAt g cell_1_pos.1 cell_1_pos.2)
  let g2 := modifyCellAt g1 cell_2_pos.1 cell_2_pos.2 (fun c => { c with moved := true })
  modifyCellAt g2 cell_1_pos.1 cell_1_pos.2 (fun c => { c with moved := true })

/-- Instrumentation record for one `swap_cells` call: endpoints plus both
cells as they were just before the swap. -/
structure SwapEv where
  src : ℕ × ℕ
  dst : ℕ × ℕ
  srcPre : Cell
  dstPre : Cell
deriving DecidableEq, Repr

def mkSwapEv (g : Grid) (p q : ℕ × ℕ) : SwapEv :=
  ⟨p, q, cellAt g p.1 p.2, cellAt g q.1 q.2⟩

def setVelocityAt (g : Grid) (p : ℕ × ℕ) (v : ℚ) : Grid :=
  modifyCellAt g p.1 p.2 (fun c => { c with velocity := v })

def generic_fall (W H : ℕ) (g : Grid) (cell_pos : ℕ × ℕ) (fall_through_types : List CellType)
    (max_velocity acceleration : ℚ) (inverted : Bool) (r : Rng) :
    Option (ℕ × ℕ) × Grid × Rng × List SwapEv :=
  let down : ℤ := if inverted then -1 else 1
  let v := (cellAt g cell_pos.1 cell_pos.2).velocity
  match furthest_by_vector W H g cell_pos (ratToUsize v) fall_through_types (0, down) with
  | some fd =>
    let g1 := setVelocityAt g cell_pos (qMin (qAdd v acceleration) max_velocity)
    (some fd, swap_cells g1 cell_pos fd, r, [mkSwapEv g cell_pos fd])
  | none =>
    let fdl := furthest_by_vector W H g cell_pos (ratToUsize v) fall_through_types (-1, down)
    let fdr := furthest_by_vector W H g cell_pos (ratToUsize v) fall_through_types (1, down)
    match fdl, fdr with
    | some l, some rr =>
      let br := r.flip
      if br.1 then
        let g1 := setVelocityAt g cell_pos (qMin (qAdd v acceleration) max_velocity)
        (some l, swap_cells g1 cell_pos l, br.2, [mkSwapEv g cell_pos l])
      else
        let g1 := setVelocityAt g cell_pos (qMin (qAdd v acceleration) max_velocity)
        (some rr, swap_cells g1 cell_pos rr, br.2, [mkSwapEv g cell_pos rr])
    | some l, none =>
      let g1 := setVelocityAt g cell_pos (qMin (qAdd v acceleration) max_velocity)
      (some l, swap_cells g1 cell_pos l, r, [mkSwapEv g cell_pos l])
    | none, some rr =>
      let g1 := setVelocityAt g cell_pos (qMin (qAdd v acceleration) max_velocity)
      (some rr, swap_cells g1 cell_pos rr, r, [mkSwapEv g cell_pos rr])
    | none, none =>
      (none, setVelocityAt g cell_pos (qHalf v), r, [])

def generic_fluid (W H : ℕ) (g : Grid) (cell_pos : ℕ × ℕ) (empty_types : List CellType)
    (max_velocity acceleration : ℚ) (inverted : Bool) (r : Rng) :
    Option (ℕ × ℕ) × Grid × Rng × List SwapEv :=
  match generic_fall W H g cell_pos empty_types max_velocity acceleration inverted r with
  | (some fall_result, g1, r1, log1) => (some fall_result, g1, r1, log1)
  | (none, g1, r1, log1) =>
    let spread_factor := ratToUsize (qAdd (cellAt g1 cell_pos.1 cell_pos.2).velocity 1)
    let furthest_left := furthest_by_vector W H g1 cell_pos spread_factor empty_types (-1, 0)
    let furthest_right := furthest_by_vector W H g1 cell_pos spread_factor empty_types (1, 0)
    match furthest_left, furthest_right with
    | some l, some rr =>
      let br := r1.flip
      if br.1 then (some rr, swap_cells g1 cell_pos rr, br.2, log1 ++ [mkSwapEv g1 cell_pos rr])
      else (some l, swap_cells g1 cell_pos l, br.2, log1 ++ [mkSwapEv g1 cell_pos l])
    | some l, none => (some l, swap_cells g1 cell_pos l, r1, log1 ++ [mkSwapEv g1 cell_pos l])
    | none, some rr => (some rr, swap_cells g1 cell_pos rr, r1, log1 ++ [mkSwapEv g1 cell_pos rr])
    | none, none => (none, g1, r1, log1)

/-- One neighbor block of `update_fire`: if in bounds (`ok`) and the
neighbor burns and the gate is up, re-roll the fire's color and spread;
else if the neighbor is water, become steam and request early return
(first component `true`). -/
def fire_block (g : Grid) (x y : ℕ) (burn_types : List CellType)
    (should_spread : Bool) (ok : Bool) (nx ny : ℕ) (r : Rng) : Bool × Grid × Rng :=
  if ok then
    let nty := (cellAt g nx ny).ty
    if nty ∈ burn_types then
      if should_spread then
        let (c, r1) := cell_type_color_random (cellAt g x y) r
        let g1 := modifyCellAt g x y (fun cc => { cc with color := c })
        (false, spread_to_cell g1 (x, y) (nx, ny), r1)
      else (false, g, r)
    else if nty = CellType.Water then
      let (steam, r1) := Cell.fromType CellType.Steam r
      (true, setCellAt g x y steam, r1)
    else (false, g, r)
  else (false, g, r)

def update_fire (W H : ℕ) (g : Grid) (x y : ℕ) (burn_types : List CellType) (r : Rng) :
    Grid × Rng :=
  match r.f with
  | (f0, r0) =>
  let should_spread := decide (f0 < Rat.divInt 1 64)
  match fire_block g x y burn_types should_spread
    (in_bounds_left ((x : ℤ) - 1)) (x - 1) y r0 with
  | (stop1, g1, r1) =>
  if stop1 then (g1, r1) else
  match fire_block g1 x y burn_types should_spread
    (in_bounds_right W (x + 1)) (x + 1) y r1 with
  | (stop2, g2, r2) =>
  if stop2 then (g2, r2) else
  match fire_block g2 x y burn_types should_spread
    (in_bounds_top ((y : ℤ) - 1)) x (y - 1) r2 with
  | (stop3, g3, r3) =>
  if stop3 then (g3, r3) else
  match fire_block g3 x y burn_types should_spread
    (in_bounds_bottom H (y + 1)) x (y + 1) r3 with
  | (stop4, g4, r4) =>
  if stop4 then (g4, r4) else
  match fire_block g4 x y burn_types should_spread
    (in_bounds_left ((x : ℤ) - 1) && in_bounds_top ((y : ℤ) - 1)) (x - 1) (y - 1) r4 with
  | (stop5, g5, r5) =>
  if stop5 then (g5, r5) else
  match fire_block g5 x y burn_types should_spread
    (in_bounds_left ((x : ℤ) - 1) && in_bounds_bottom H (y + 1)) (x - 1) (y + 1) r5 with
  | (stop6, g6, r6) =>
  if stop6 then (g6, r6) else
  match fire_block g6 x y burn_types should_spread
    (in_bounds_right W (x + 1) && in_bounds_top ((y : ℤ) - 1)) (x + 1) (y - 1) r6 with
  | (stop7, g7, r7) =>
  if stop7 then (g7, r7) else
  match fire_block g7 x y burn_types should_spread
    (in_bounds_right W (x + 1) && in_bounds_bottom H (y + 1)
      && is_empty g7 (x + 1) (y + 1) burn_types) (x + 1) (y + 1) r7 with
  | (stop8, g8, r8) =>
  if stop8 then (g8, r8) else
  if !should_spread then (g8, r8) else
  match r8.f with
  | (f1, r9) =>
  if f1 < Rat.divInt 1 8 then
    match Cell.fromType CellType.Smoke r9 with
    | (c, r10) => (setCellAt g8 x y c, r10)
  else
    match Cell.fromType CellType.Air r9 with
    | (c, r10) => (setCellAt g8 x y c, r10)

def update_sand (W H : ℕ) (g : Grid) (x y : ℕ) (empty_types : List CellType) (r : Rng) :
    Grid × Rng × List SwapEv :=
  match generic_fall W H g (x, y) empty_types MAX_VELOCITY ACCELERATION false r with
  | (_, g1, r1, log1) => (g1, r1, log1)

def update_water (W H : ℕ) (g : Grid) (x y : ℕ) (empty_types : List CellType) (r : Rng) :
    Grid × Rng × List SwapEv :=
  let (f, r1) := r.f
  let s :=
    if f < Rat.divInt 1 8 ∧ (cellAt g x y).velocity < Rat.divInt 1 10 then
      let (c, r2) := cell_type_color_random (cellAt g x y) r1
      (modifyCellAt g x y (fun cc => { cc with color := c }), r2)
    else (g, r1)
  match generic_fluid W H s.1 (x, y) empty_types MAX_VELOCITY ACCELERATION false s.2 with
  | (_, g1, r1, log1) => (g1, r1, log1)

def update_smoke (W H : ℕ) (g : Grid) (x y : ℕ) (empty_types : List CellType) (r : Rng) :
    Grid × Rng × List SwapEv :=
  if (cellAt g x y).lifetime = 0 then
    let (c, r1) := Cell.fromType CellType.Air r
    (setCellAt g x y c, r1, [])
  else
    let g1 := modifyCellAt g x y (fun c => { c with lifetime := c.lifetime - 1 })
    let g2 := modifyCellAt g1 x y (fun c =>
      { c with color := (interpolate_color SMOKE_COLOR_LIGHT SMOKE_COLOR_DARK
          (Rat.divInt (c.lifetime : ℤ) (SMOKE_LIFETIME : ℤ))) })
    match generic_fluid W H g2 (x, y) empty_types SMOKE_MAX_VELOCITY SMOKE_ACCELERATION true r with
    | (_, g3, r1, log1) => (g3, r1, log1)

def update_steam (W H : ℕ) (g : Grid) (x y : ℕ) (empty_types : List CellType) (r : Rng) :
    Grid × Rng × List SwapEv :=
  if (cellAt g x y).lifetime = 0 then
    let (f, r1) := r.f
    if f < Rat.divInt 1 64 then
      let (c, r2) := Cell.fromType CellType.Water r1
      (setCellAt g x y c, r2, [])
    else
      let (c, r2) := Cell.fromType CellType.Air r1
      (setCellAt g x y c, r2, [])
  else
    let g1 := modifyCellAt g x y (fun c => { c with lifetime := c.lifetime - 1 })
    let g2 := modifyCellAt g1 x y (fun c =>
      { c with color := (interpolate_color STEAM_COLOR_LIGHT STEAM_COLOR_DARK
          (Rat.divInt (c.lifetime : ℤ) (STEAM_LIFETIME : ℤ))) })
    match generic_fluid W H g2 (x, y) empty_types STEAM_MAX_VELOCITY STEAM_ACCELERATION true r with
    | (_, g3, r1, log1) => (g3, r1, log1)

def update_cell (W H : ℕ) (i : ℕ) (g : Grid) (x y : ℕ) (r : Rng) : Grid × Rng × List SwapEv :=
  if x % 2 = i then (g, r, [])
  else
    let cell := cellAt g x y
    if cell.moved then (g, r, [])
    else
      match cell.ty with
      | CellType.Sand =>
        update_sand W H g x y
          [CellType.Air, CellType.Water, CellType.Steam, CellType.Smoke] r
      | CellType.Water =>
        update_water W H g x y [CellType.Air, CellType.Steam, CellType.Smoke] r
      | CellType.Fire =>
        match update_fire W H g x y [CellType.Wood] r with
        | (g1, r1) => (g1, r1, [])
      | CellType.Smoke => update_smoke W H g x y [CellType.Air] r
      | CellType.Steam => update_steam W H g x y [CellType.Air] r
      | _ => (g, r, [])

/-- The visit order of `update_cells`: pass `i = 0` walks rows bottom-up
with `x` descending (only odd `x` survive the parity guard), pass `i = 1`
walks rows bottom-up with `x` ascending (only even `x` survive). -/
def visitList (W H : ℕ) : List (ℕ × ℕ × ℕ) :=
  ((List.range H).reverse.map (fun y => (List.range W).reverse.map (fun x => (0, x, y)))).flatten
  ++ ((List.range H).reverse.map (fun y => (List.range W).map (fun x => (1, x, y)))).flatten

def resetMoved (g : Grid) : Grid :=
  g.map (fun col => col.map (fun c => { c with moved := false }))

/-- One scheduler step: dispatch `update_cell` for the visit tuple
`t = (pass, x, y)` and append its swap log. -/
def update_cells_step (W H : ℕ) (s : Grid × Rng × List SwapEv) (t : ℕ × ℕ × ℕ) :
    Grid × Rng × List SwapEv :=
  match s with
  | (sg, sr, slog) =>
    match update_cell W H t.1 sg t.2.1 t.2.2 sr with
    | (g1, r1, log1) => (g1, r1, slog ++ log1)

def update_cells (W H : ℕ) (g : Grid) (r : Rng) : Grid × Rng × List SwapEv :=
  match (visitList W H).foldl (update_cells_step W H) (g, r, []) with
  | (g1, r1, log1) => (resetMoved g1, r1, log1)

def intRange (a b : ℤ) : List ℤ := (List.range (b - a).toNat).map (fun (i : ℕ) => a + (i : ℤ))

def cursor_region_cell_coordinates (W H : ℕ) (cursor_position : ℕ × ℕ)
    (cursor_radius : ℕ) : List (ℕ × ℕ) :=
  let cx : ℤ := cursor_position.1
  let cy : ℤ := cursor_position.2
  let rad : ℤ := cursor_radius
  let x_start := max (cx - rad) 0
  let x_end := min (cx + rad) (W : ℤ)
  let y_start := max (cy - rad) 0
  let y_end := min (cy + rad) (H : ℤ)
  ((((intRange x_start x_end).map
      (fun x => (intRange y_start y_end).map (fun y => (x, y)))).flatten).filter
    (fun p => decide ((cx - p.1) ^ 2 + (cy - p.2) ^ 2 ≤ rad ^ 2))).map
    (fun p => (p.1.toNat, p.2.toNat))

/-- The body of `put_cell`'s loop after the trickle gate: place only into
`{Air, Smoke, Water}`. -/
def put_cell_place (g : Grid) (p : ℕ × ℕ) (selected : CellType) (r : Rng) : Grid × Rng :=
  if is_empty g p.1 p.2 [CellType.Air, CellType.Smoke, CellType.Water] then
    let (c, r1) := Cell.fromType selected r
    (setCellAt g p.1 p.2 c, r1)
  else (g, r)

/-- The body of `put_cell`'s loop: Sand, Water, Fire and Smoke first pass
the 12.5% trickle gate (`continue` when the roll exceeds 0.125), all other
materials place unconditionally. -/
def put_cell_step (selected_cell_type : CellType) (s : Grid × Rng) (p : ℕ × ℕ) : Grid × Rng :=
  match selected_cell_type with
  | CellType.Sand | CellType.Water | CellType.Fire | CellType.Smoke =>
    match s.2.f with
    | (f, r1) =>
      if Rat.divInt 1 8 < f then (s.1, r1)
      else put_cell_place s.1 p selected_cell_type r1
  | _ => put_cell_place s.1 p selected_cell_type s.2

def put_cell (W H : ℕ) (g : Grid) (selected_cell_type : CellType)
    (cursor_position : ℕ × ℕ) (cursor_radius : ℕ) (r : Rng) : Grid × Rng :=
  (cursor_region_cell_coordinates W H cursor_position cursor_radius).foldl
    (put_cell_step selected_cell_type) (g, r)

def remove_cells (W H : ℕ) (g : Grid) (cursor_position : ℕ × ℕ)
    (cursor_radius : ℕ) (r : Rng) : Grid × Rng :=
  (cursor_region_cell_coordinates W H cursor_position cursor_radius).foldl
    (fun (s : Grid × Rng) p =>
      let (c, r1) := Cell.fromType CellType.Air s.2
      (setCellAt s.1 p.1 p.2 c, r1))
    (g, r)

/-- The per-material velocity cap passed to the movement routines:
`SMOKE_MAX_VELOCITY` / `STEAM_MAX_VELOCITY` for the two gases,
`MAX_VELOCITY` for every other material. -/
def maxVelOf : CellType → ℚ
  | CellType.Smoke => SMOKE_MAX_VELOCITY
  | CellType.Steam => STEAM_MAX_VELOCITY
  | _ => MAX_VELOCITY

/-- The claimed per-cell velocity bound. -/
def CellOk (c : Cell) : Prop := 0 ≤ c.velocity ∧ c.velocity ≤ maxVelOf c.ty

instance (c : Cell) : Decidable (CellOk c) :=
  decidable_of_iff (0 ≤ c.velocity ∧ c.velocity ≤ maxVelOf c.ty) Iff.rfl

/-- The claimed whole-grid velocity invariant. -/
def VelInv (g : Grid) : Prop := ∀ col ∈ g, ∀ c ∈ col, CellOk c

instance (g : Grid) : Decidable (VelInv g) :=
  decidable_of_iff (∀ col ∈ g, ∀ c ∈ col, CellOk c) Iff.rfl

/-!
Characterization helpers for the farthest-match scan: the step coordinate
examined at index `i`, the scan's qualification test there (in bounds and
material in the accept set — exactly the loop's condition), and a
structural recursion equal to the loop.
-/

def fbvCoord (cell_pos : ℕ × ℕ) (direction : ℤ × ℤ) (i : ℕ) : ℤ × ℤ :=
  ((cell_pos.1 : ℤ) + direction.1 * (i : ℤ), (cell_pos.2 : ℤ) + direction.2 * (i : ℤ))

def fbvHit (W H : ℕ) (g : Grid) (cell_pos : ℕ × ℕ) (empty_types : List CellType)
    (direction : ℤ × ℤ) (i : ℕ) : Bool :=
  in_bounds W H (fbvCoord cell_pos direction i).1 (fbvCoord cell_pos direction i).2 &&
    is_empty g (fbvCoord cell_pos direction i).1.toNat (fbvCoord cell_pos direction i).2.toNat
      empty_types

def fbvTarget (cell_pos : ℕ × ℕ) (direction : ℤ × ℤ) (i : ℕ) : ℕ × ℕ :=
  ((fbvCoord cell_pos direction i).1.toNat, (fbvCoord cell_pos direction i).2.toNat)

/-- Reference recursion for the scan over steps `1..n`, keeping the
largest qualifying step. -/
def fbvBest (W H : ℕ) (g : Grid) (cell_pos : ℕ × ℕ) (empty_types : List CellType)
    (direction : ℤ × ℤ) : ℕ → Option (ℕ × ℕ)
  | 0 => none
  | n + 1 =>
    if fbvHit W H g cell_pos empty_types direction (n + 1) then
      some (fbvTarget cell_pos direction (n + 1))
    else fbvBest W H g cell_pos empty_types direction n

-- Concrete fixtures used by the claim theorems: factory-shaped cells
-- (exactly what `Cell::from` builds for the first palette index) and small
-- grids taken from the spec's own test scenarios.

def constRng (fv : ℚ) (bv : Bool) (uv : ℕ) : Rng :=
  { fs := fun _ => fv, bs := fun _ => bv, us := fun _ => uv, k := 0 }

def airCell : Cell := ⟨CellType.Air, false, 1, 0, (0, 0, 0)⟩

def sandCell : Cell := ⟨CellType.Sand, false, 1, 0, (0xf6, 0xd7, 0xb0)⟩

def waterCell : Cell := ⟨CellType.Water, false, 1, 0, (0x18, 0x56, 0xdc)⟩

def fireCell : Cell := ⟨CellType.Fire, false, 1, 0, (0xc3, 0x3e, 0x05)⟩

def woodCell : Cell := ⟨CellType.Wood, false, 1, 0, (0x77, 0x4f, 0x3c)⟩

def airCol3 : List Cell := [airCell, airCell, airCell]

/-- 2×2 grid: Fire at `(0,0)`, Water at its down-right neighbor `(1,1)`. -/
def gridFireDR : Grid := [[fireCell, airCell], [airCell, waterCell]]

/-- 1×3 grid: a single Sand cell on top, two Air rows below it. -/
def gridSandTop : Grid := [[sandCell, airCell, airCell]]

/-- 1×3 grid: the Sand cell settled on the bottom row with velocity `v`. -/
def gridSandBottom (v : ℚ) : Grid := [[airCell, airCell, { sandCell with velocity := v }]]

/-- 3×3 grid: Sand at `(2,0)` directly above Water at `(2,1)`, Air elsewhere. -/
def gridWaterSand : Grid := [airCol3, airCol3, [sandCell, waterCell, airCell]]

/-- 3×3 grid of the spec's deterministic-extinguish scenario: Fire at the
center `(1,1)`, Water at `(0,0)`, Air elsewhere. -/
def gridFireCenter : Grid :=
  [[waterCell, airCell, airCell], [airCell, fireCell, airCell], airCol3]

def gridAir3 : Grid := [airCol3, airCol3, airCol3]

/-- 2×1 grid: Fire at `(0,0)`, Wood at `(1,0)`. -/
def gridFireWood : Grid := [[fireCell], [woodCell]]

/-- Rng stream for the fire-spread run: the first `f32` roll passes the
spread gate, the color re-roll picks palette index 0, and the next natural
draw (the one a factory construction at the copy point would consume)
picks palette index 4. -/
def rngSpread : Rng :=
  { fs := fun n => if n = 0 then 0 else 1, bs := fun _ => false,
    us := fun n => if n = 1 then 0 else 4, k := 0 }

def devSwapEv : SwapEv := ⟨(0, 0), (0, 0), airCell, airCell⟩

/-- The swap log of one tick on `gridWaterSand` (water processed first,
then the sand above falls through it). -/
def logWaterSand : List SwapEv := (update_cells 3 3 gridWaterSand (constRng 1 false 0)).2.2

/-- C1 (code_bug evidence): with Water at the down-right diagonal of a Fire
cell, `update_fire` leaves the Fire cell alone when the spread roll fails
(it stays Fire) and lets it consume itself when the roll passes (it becomes
Smoke here) — in neither case does it become Steam, because the down-right
block's extra `is_empty(.., burn_types)` guard skips the water check. -/
theorem fire_down_right_water_not_extinguished :
    (cellAt (update_fire 2 2 gridFireDR 0 0 [CellType.Wood] (constRng 1 false 0)).1 0 0).ty
      = CellType.Fire ∧
    (cellAt (update_fire 2 2 gridFireDR 0 0 [CellType.Wood] (constRng 0 false 0)).1 0 0).ty
      = CellType.Smoke := by decide

/-- C2 (counterexample): starting from a single Sand cell with two Air rows
below it, one tick moves the Sand down two rows (to the bottom), not
exactly one row as claimed: the row directly below the start is Air and
the bottom row holds the Sand. -/
theorem sand_tick_skips_a_row :
    (cellAt (update_cells 1 3 gridSandTop (constRng 1 false 0)).1 0 1).ty = CellType.Air ∧
    (cellAt (update_cells 1 3 gridSandTop (constRng 1 false 0)).1 0 2).ty = CellType.Sand := by
  decide

/-- C3 (counterexample): in one tick on `gridWaterSand`, the Water cell
first swaps from `(2,1)` into `(2,2)` (acquiring `moved = true`), and a
later step of the same tick swaps that very cell again — the second logged
swap hits destination `(2,2)` whose pre-swap cell is the Water cell with
`moved = true`. -/
theorem moved_water_swapped_again :
    logWaterSand.length = 2 ∧
    (logWaterSand.getD 0 devSwapEv).dst = (2, 2) ∧
    (logWaterSand.getD 1 devSwapEv).dst = (2, 2) ∧
    (logWaterSand.getD 1 devSwapEv).dstPre.ty = CellType.Water ∧
    (logWaterSand.getD 1 devSwapEv).dstPre.moved = true := by decide

/-- C7 (counterexample): painting Wood (100% fill) with center `(1,1)` and
radius 1 on an all-Air 3×3 grid never considers the in-bounds, in-circle
coordinate `(2,1)` — it stays Air although `dx² + dy² ≤ r²` holds there —
because the region box `x_start..x_end` is half-open. -/
theorem paint_misses_circle_edge :
    (cellAt (put_cell 3 3 gridAir3 CellType.Wood (1, 1) 1 (constRng 0 false 0)).1 2 1).ty
      = CellType.Air ∧
    ((1 : ℤ) - 2) ^ 2 + ((1 : ℤ) - 1) ^ 2 ≤ 1 ^ 2 ∧
    (cellAt gridAir3 2 1).ty = CellType.Air := by decide

/-- C8 (counterexample): when Fire at `(0,0)` spreads to Wood at `(1,0)`,
the destination is a field-for-field copy of the (re-colored) source Fire
cell — here exactly `fireCell` with `moved := true`, sharing the source's
just-rolled color `FIRE_COLORS[0]` — whereas a factory-constructed Fire
cell built from the rng at the copy point would have sampled the distinct
color `FIRE_COLORS[4]`. -/
theorem fire_spread_is_raw_copy :
    cellAt (update_fire 2 1 gridFireWood 0 0 [CellType.Wood] rngSpread).1 1 0
      = { fireCell with moved := true } ∧
    (Cell.fromType CellType.Fire (Rng.advance rngSpread 2)).1.color = (0xf9, 0x61, 0x1f) ∧
    fireCell.color ≠ (0xf9, 0x61, 0x1f) := by decide

/-- C3 (amended, general part): a cell whose movedFlag is already true is
skipped entirely when visited — `update_cell` changes nothing, consumes no
randomness, and logs no swap. -/
theorem moved_cell_not_redispatched (W H i : ℕ) (g : Grid) (x y : ℕ) (r : Rng)
    (h : (cellAt g x y).moved = true) :
    update_cell W H i g x y r = (g, r, []) := by
  unfold update_cell
  split
  · rfl
  · simp [h]

def gridMovedSand : Grid := [[{ sandCell with moved := true }]]

theorem moved_cell_not_redispatched_witness :
    update_cell 1 1 1 gridMovedSand 0 0 (constRng 1 false 0)
      = (gridMovedSand, constRng 1 false 0, []) :=
  moved_cell_not_redispatched 1 1 1 gridMovedSand 0 0 (constRng 1 false 0) (by decide)

theorem furthest_by_vector_eq_fbvBest (W H : ℕ) (g : Grid) (pos : ℕ × ℕ)
    (E : List CellType) (dir : ℤ × ℤ) (m : ℕ) :
    furthest_by_vector W H g pos m E dir = fbvBest W H g pos E dir (m + 1) := by
  induction m with
  | zero => rfl
  | succ n ih =>
    unfold furthest_by_vector at ih ⊢
    rw [List.range'_1_concat, List.foldl_append, ih, Nat.add_comm 1 (n + 1)]
    rfl

theorem fbvBest_eq_none_iff (W H : ℕ) (g : Grid) (pos : ℕ × ℕ)
    (E : List CellType) (dir : ℤ × ℤ) (n : ℕ) :
    fbvBest W H g pos E dir n = none ↔
      ∀ i, 1 ≤ i → i ≤ n → fbvHit W H g pos E dir i = false := by
  induction n with
  | zero =>
    simp only [fbvBest, true_iff]
    intro i h1 h2
    exact absurd h2 (by omega)
  | succ n ih =>
    rcases Bool.eq_false_or_eq_true (fbvHit W H g pos E dir (n + 1)) with hb | hb
    swap
    · rw [fbvBest, hb, if_neg Bool.false_ne_true, ih]
      constructor
      · intro hall i h1 h2
        rcases Nat.lt_or_ge i (n + 1) with hlt | hge
        · exact hall i h1 (by omega)
        · have hi : i = n + 1 := by omega
          rw [hi]
          exact hb
      · intro hall i h1 h2
        exact hall i h1 (by omega)
    · rw [fbvBest, hb, if_pos rfl]
      constructor
      · intro h
        cases h
      · intro hall
        have hfalse := hall (n + 1) (by omega) (by omega)
        rw [hb] at hfalse
        cases hfalse

theorem fbvBest_eq_some (W H : ℕ) (g : Grid) (pos : ℕ × ℕ)
    (E : List CellType) (dir : ℤ × ℤ) (n : ℕ) (c : ℕ × ℕ)
    (h : fbvBest W H g pos E dir n = some c) :
    ∃ i, 1 ≤ i ∧ i ≤ n ∧ fbvHit W H g pos E dir i = true ∧
      c = fbvTarget pos dir i ∧
      ∀ j, i < j → j ≤ n → fbvHit W H g pos E dir j = false := by
  induction n generalizing c with
  | zero => cases h
  | succ n ih =>
    rcases Bool.eq_false_or_eq_true (fbvHit W H g pos E dir (n + 1)) with hb | hb
    swap
    · rw [fbvBest, hb, if_neg Bool.false_ne_true] at h
      obtain ⟨i, h1, h2, h3, h4, h5⟩ := ih c h
      refine ⟨i, h1, by omega, h3, h4, fun j hj1 hj2 => ?_⟩
      rcases Nat.lt_or_ge j (n + 1) with hlt | hge
      · exact h5 j hj1 (by omega)
      · have hj : j = n + 1 := by omega
        rw [hj]
        exact hb
    · rw [fbvBest, hb, if_pos rfl] at h
      cases h
      exact ⟨n + 1, by omega, by omega, hb, rfl, fun j hj1 hj2 => absurd hj2 (by omega)⟩

/-- Helper: a coordinate produced by the scan holds a material from the
accept set (in the grid the scan ran on). -/
theorem furthest_by_vector_mem (W H : ℕ) (g : Grid) (pos : ℕ × ℕ) (m : ℕ)
    (E : List CellType) (dir : ℤ × ℤ) (c : ℕ × ℕ)
    (h : furthest_by_vector W H g pos m E dir = some c) :
    (cellAt g c.1 c.2).ty ∈ E := by
  rw [furthest_by_vector_eq_fbvBest] at h
  obtain ⟨i, -, -, h3, h4, -⟩ := fbvBest_eq_some W H g pos E dir (m + 1) c h
  rw [fbvHit, Bool.and_eq_true, is_empty, decide_eq_true_eq] at h3
  rw [h4]
  exact h3.2

/-- C5: the farthest-match scan examines exactly the steps
`i = 1 .. maxSteps + 1`; it returns `none` iff no examined step is both
in-bounds and of accepted material, and any returned coordinate is the
target of the largest qualifying examined step — every later examined
step fails to qualify, while nothing is required of earlier (possibly
blocking) steps between origin and result. -/
theorem furthest_by_vector_spec (W H : ℕ) (g : Grid) (pos : ℕ × ℕ) (m : ℕ)
    (E : List CellType) (dir : ℤ × ℤ) :
    (furthest_by_vector W H g pos m E dir = none ↔
      ∀ i, 1 ≤ i → i ≤ m + 1 → fbvHit W H g pos E dir i = false) ∧
    ∀ c, furthest_by_vector W H g pos m E dir = some c →
      ∃ i, 1 ≤ i ∧ i ≤ m + 1 ∧ fbvHit W H g pos E dir i = true ∧
        c = fbvTarget pos dir i ∧
        ∀ j, i < j → j ≤ m + 1 → fbvHit W H g pos E dir j = false := by
  constructor
  · rw [furthest_by_vector_eq_fbvBest]
    exact fbvBest_eq_none_iff W H g pos E dir (m + 1)
  · intro c hc
    rw [furthest_by_vector_eq_fbvBest] at hc
    exact fbvBest_eq_some W H g pos E dir (m + 1) c hc

theorem furthest_by_vector_spec_witness :
    ∃ i, 1 ≤ i ∧ i ≤ 2 ∧ fbvHit 1 3 gridSandTop (0, 0) [CellType.Air] (0, 1) i = true ∧
      ((0 : ℕ), (2 : ℕ)) = fbvTarget (0, 0) (0, 1) i ∧
      ∀ j, i < j → j ≤ 2 → fbvHit 1 3 gridSandTop (0, 0) [CellType.Air] (0, 1) j = false :=
  (furthest_by_vector_spec 1 3 gridSandTop (0, 0) 1 [CellType.Air] (0, 1)).2 (0, 2) (by decide)

theorem in_bounds_iff (W H : ℕ) (x y : ℤ) :
    in_bounds W H x y = true ↔ 0 ≤ x ∧ 0 ≤ y ∧ y.toNat < H ∧ x.toNat < W := by
  simp [in_bounds, in_bounds_left, in_bounds_top, in_bounds_bottom, in_bounds_right, and_assoc]

theorem fbvHit_false_of_oob (W H : ℕ) (g : Grid) (pos : ℕ × ℕ) (E : List CellType)
    (dir : ℤ × ℤ) (i : ℕ)
    (h : ¬(0 ≤ (fbvCoord pos dir i).1 ∧ 0 ≤ (fbvCoord pos dir i).2 ∧
      (fbvCoord pos dir i).2.toNat < H ∧ (fbvCoord pos dir i).1.toNat < W)) :
    fbvHit W H g pos E dir i = false := by
  rw [fbvHit]
  have hb : in_bounds W H (fbvCoord pos dir i).1 (fbvCoord pos dir i).2 = false := by
    rw [Bool.eq_false_iff]
    intro ht
    exact h ((in_bounds_iff _ _ _ _).1 ht)
  rw [hb, Bool.false_and]

/-- On the settled 1×3 grid, a cell on the bottom row has no in-bounds fall
destination in any of the three downward directions, whatever the
magnitude. -/
theorem sand_bottom_no_dest (v : ℚ) (m : ℕ) (dx : ℤ) (hdx : dx = 0 ∨ dx = -1 ∨ dx = 1) :
    furthest_by_vector 1 3 (gridSandBottom v) (0, 2) m
      [CellType.Air, CellType.Water, CellType.Steam, CellType.Smoke] (dx, 1) = none := by
  rw [furthest_by_vector_eq_fbvBest, fbvBest_eq_none_iff]
  intro i h1 h2
  apply fbvHit_false_of_oob
  simp only [fbvCoord]
  rcases hdx with h | h | h <;> rw [h] <;> intro hc <;> omega

theorem generic_fall_bottom (v : ℚ) (r : Rng) :
    generic_fall 1 3 (gridSandBottom v) (0, 2)
      [CellType.Air, CellType.Water, CellType.Steam, CellType.Smoke]
      MAX_VELOCITY ACCELERATION false r = (none, gridSandBottom (qHalf v), r, []) := by
  have h1 := sand_bottom_no_dest v (ratToUsize v) 0 (Or.inl rfl)
  have h2 := sand_bottom_no_dest v (ratToUsize v) (-1) (Or.inr (Or.inl rfl))
  have h3 := sand_bottom_no_dest v (ratToUsize v) 1 (Or.inr (Or.inr rfl))
  have hd : (if (false : Bool) = true then (-1 : ℤ) else 1) = 1 := rfl
  have hv : (cellAt (gridSandBottom v) 0 2).velocity = v := rfl
  unfold generic_fall
  simp only []
  rw [hd, hv, h1, h2, h3]
  rfl

theorem update_cell_sand_bottom (v : ℚ) (r : Rng) :
    update_cell 1 3 1 (gridSandBottom v) 0 2 r = (gridSandBottom (qHalf v), r, []) := by
  show update_sand 1 3 (gridSandBottom v) 0 2
    [CellType.Air, CellType.Water, CellType.Steam, CellType.Smoke] r = _
  unfold update_sand
  rw [generic_fall_bottom]

/-- The mid-tick state of the settling run: the Sand cell has swapped to
the bottom row with updated velocity and `moved = true`, not yet reset. -/
def gridSandMoved : Grid :=
  [[airCell, airCell, ⟨CellType.Sand, true, Rat.divInt 6 5, 0, (0xf6, 0xd7, 0xb0)⟩]]

/-- C2 (amended): from a single Sand cell with two Air rows below it, one
tick moves the Sand down exactly two rows — the scan looks
`floor(velocity) + 1 = 2` steps ahead and takes the farthest — landing it
on the bottom row with velocity `min(1.0 + 0.2, 10.0) = 1.2`; every
subsequent tick leaves its position unchanged and halves its velocity. -/
theorem sand_settling_progression :
    (∀ r : Rng, (update_cells 1 3 gridSandTop r).1 = gridSandBottom (Rat.divInt 6 5)) ∧
    ∀ (v : ℚ) (r : Rng), (update_cells 1 3 (gridSandBottom v) r).1 = gridSandBottom (qHalf v) := by
  constructor
  · intro r
    have h0 : update_cell 1 3 0 gridSandTop 0 2 r = (gridSandTop, r, []) := rfl
    have h1 : update_cell 1 3 0 gridSandTop 0 1 r = (gridSandTop, r, []) := rfl
    have h2 : update_cell 1 3 0 gridSandTop 0 0 r = (gridSandTop, r, []) := rfl
    have h3 : update_cell 1 3 1 gridSandTop 0 2 r = (gridSandTop, r, []) := rfl
    have h4 : update_cell 1 3 1 gridSandTop 0 1 r = (gridSandTop, r, []) := rfl
    have h5 : update_cell 1 3 1 gridSandTop 0 0 r
        = (gridSandMoved, r, [⟨(0, 0), (0, 2), sandCell, airCell⟩]) := rfl
    have hvl : visitList 1 3 = [(0, 0, 2), (0, 0, 1), (0, 0, 0), (1, 0, 2), (1, 0, 1), (1, 0, 0)] :=
      by decide
    unfold update_cells
    rw [hvl]
    simp only [update_cells_step, List.foldl_cons, List.foldl_nil, h0, h1, h2, h3, h4, h5,
      List.append_nil, List.nil_append]
    rfl
  · intro v r
    have h0 : update_cell 1 3 0 (gridSandBottom v) 0 2 r = (gridSandBottom v, r, []) := rfl
    have h1 : update_cell 1 3 0 (gridSandBottom v) 0 1 r = (gridSandBottom v, r, []) := rfl
    have h2 : update_cell 1 3 0 (gridSandBottom v) 0 0 r = (gridSandBottom v, r, []) := rfl
    have h4 : update_cell 1 3 1 (gridSandBottom (qHalf v)) 0 1 r
        = (gridSandBottom (qHalf v), r, []) := rfl
    have h5 : update_cell 1 3 1 (gridSandBottom (qHalf v)) 0 0 r
        = (gridSandBottom (qHalf v), r, []) := rfl
    have hvl : visitList 1 3 = [(0, 0, 2), (0, 0, 1), (0, 0, 0), (1, 0, 2), (1, 0, 1), (1, 0, 0)] :=
      by decide
    unfold update_cells
    rw [hvl]
    simp only [update_cells_step, List.foldl_cons, List.foldl_nil, h0, h1, h2,
      update_cell_sand_bottom v r, h4, h5, List.append_nil, List.nil_append]
    rfl

/-- A freshly constructed Steam cell (what `Cell::from(Steam)` builds). -/
def steamFresh : Cell := ⟨CellType.Steam, false, 1, 50, (0xf5, 0xf5, 0xf5)⟩

/-- `gridFireCenter` after the Fire cell at `(1,1)` has been extinguished
by its top-left Water neighbor. -/
def gridFireSteam : Grid :=
  [[waterCell, airCell, airCell], [airCell, steamFresh, airCell], airCol3]

/-- `gridFireSteam` after the Water cell has fallen from `(0,0)` to the
bottom of its column. -/
def gridFireSteamWaterDown : Grid :=
  [[airCell, airCell, ⟨CellType.Water, true, Rat.divInt 6 5, 0, (0x18, 0x56, 0xdc)⟩],
   [airCell, steamFresh, airCell], airCol3]

theorem update_cell_water_c4 (r : Rng) :
    update_cell 3 3 1 gridFireSteam 0 0 r
      = (gridFireSteamWaterDown, Rng.advance r 1, [⟨(0, 0), (0, 2), waterCell, airCell⟩]) := by
  have hfl : generic_fluid 3 3 gridFireSteam (0, 0) [CellType.Air, CellType.Steam, CellType.Smoke]
      MAX_VELOCITY ACCELERATION false { r with k := r.k + 1 }
      = (some (0, 2), gridFireSteamWaterDown, Rng.advance r 1,
        [⟨(0, 0), (0, 2), waterCell, airCell⟩]) := rfl
  show update_water 3 3 gridFireSteam 0 0 [CellType.Air, CellType.Steam, CellType.Smoke] r = _
  unfold update_water
  simp only [Rng.f]
  rw [if_neg (by rintro ⟨-, hv⟩; revert hv; decide)]
  simp only []
  rw [hfl]

/-- C4: on the 3×3 grid with Fire at the center `(1,1)`, Water at `(0,0)`
and Air elsewhere, one tick turns the center into Steam for every possible
outcome of the random rolls. -/
theorem fire_water_extinguish_tick (r : Rng) :
    (cellAt (update_cells 3 3 gridFireCenter r).1 1 1).ty = CellType.Steam := by
  have hA1 : update_cell 3 3 0 gridFireCenter 2 2 r = (gridFireCenter, r, []) := rfl
  have hA2 : update_cell 3 3 0 gridFireCenter 1 2 r = (gridFireCenter, r, []) := rfl
  have hA3 : update_cell 3 3 0 gridFireCenter 0 2 r = (gridFireCenter, r, []) := rfl
  have hA4 : update_cell 3 3 0 gridFireCenter 2 1 r = (gridFireCenter, r, []) := rfl
  have hfire : update_cell 3 3 0 gridFireCenter 1 1 r = (gridFireSteam, Rng.advance r 1, []) :=
    rfl
  have hA5 : update_cell 3 3 0 gridFireSteam 0 1 (Rng.advance r 1)
      = (gridFireSteam, Rng.advance r 1, []) := rfl
  have hA6 : update_cell 3 3 0 gridFireSteam 2 0 (Rng.advance r 1)
      = (gridFireSteam, Rng.advance r 1, []) := rfl
  have hA7 : update_cell 3 3 0 gridFireSteam 1 0 (Rng.advance r 1)
      = (gridFireSteam, Rng.advance r 1, []) := rfl
  have hA8 : update_cell 3 3 0 gridFireSteam 0 0 (Rng.advance r 1)
      = (gridFireSteam, Rng.advance r 1, []) := rfl
  have hB1 : update_cell 3 3 1 gridFireSteam 0 2 (Rng.advance r 1)
      = (gridFireSteam, Rng.advance r 1, []) := rfl
  have hB2 : update_cell 3 3 1 gridFireSteam 1 2 (Rng.advance r 1)
      = (gridFireSteam, Rng.advance r 1, []) := rfl
  have hB3 : update_cell 3 3 1 gridFireSteam 2 2 (Rng.advance r 1)
      = (gridFireSteam, Rng.advance r 1, []) := rfl
  have hB4 : update_cell 3 3 1 gridFireSteam 0 1 (Rng.advance r 1)
      = (gridFireSteam, Rng.advance r 1, []) := rfl
  have hB5 : update_cell 3 3 1 gridFireSteam 1 1 (Rng.advance r 1)
      = (gridFireSteam, Rng.advance r 1, []) := rfl
  have hB6 : update_cell 3 3 1 gridFireSteam 2 1 (Rng.advance r 1)
      = (gridFireSteam, Rng.advance r 1, []) := rfl
  have hwater : update_cell 3 3 1 gridFireSteam 0 0 (Rng.advance r 1)
      = (gridFireSteamWaterDown, Rng.advance r 2, [⟨(0, 0), (0, 2), waterCell, airCell⟩]) :=
    update_cell_water_c4 (Rng.advance r 1)
  have hC1 : update_cell 3 3 1 gridFireSteamWaterDown 1 0 (Rng.advance r 2)
      = (gridFireSteamWaterDown, Rng.advance r 2, []) := rfl
  have hC2 : update_cell 3 3 1 gridFireSteamWaterDown 2 0 (Rng.advance r 2)
      = (gridFireSteamWaterDown, Rng.advance r 2, []) := rfl
  have hvl : visitList 3 3 =
      [(0, 2, 2), (0, 1, 2), (0, 0, 2), (0, 2, 1), (0, 1, 1), (0, 0, 1),
       (0, 2, 0), (0, 1, 0), (0, 0, 0),
       (1, 0, 2), (1, 1, 2), (1, 2, 2), (1, 0, 1), (1, 1, 1), (1, 2, 1),
       (1, 0, 0), (1, 1, 0), (1, 2, 0)] := by decide
  unfold update_cells
  rw [hvl]
  simp only [update_cells_step, List.foldl_cons, List.foldl_nil, hA1, hA2, hA3, hA4, hfire,
    hA5, hA6, hA7, hA8, hB1, hB2, hB3, hB4, hB5, hB6, hwater, hC1, hC2,
    List.append_nil, List.nil_append]
  rfl

/-- The column of `g` at index `x` (empty when out of range), as read by
`cellAt`/`setCellAt`. -/
def colAt (g : Grid) (x : ℕ) : List Cell := g.getD x []

theorem colAt_setCellAt (g : Grid) (x y : ℕ) (c : Cell) (x' : ℕ) :
    colAt (setCellAt g x y c) x' =
      if x = x' ∧ x < g.length then (colAt g x).set y c else colAt g x' := by
  unfold colAt setCellAt
  rcases eq_or_ne x x' with he | hne
  · subst he
    rcases Nat.lt_or_ge x g.length with hlt | hge
    · simp [List.getD_eq_getElem?_getD, List.getElem?_set_self hlt, hlt]
    · rw [List.set_eq_of_length_le]
      · simp [Nat.not_lt.2 hge]
      · simpa using hge
  · simp [List.getD_eq_getElem?_getD, List.getElem?_set_ne hne, fun h : x = x' => hne h]

theorem cellAt_setCellAt (g : Grid) (x y : ℕ) (c : Cell) (x' y' : ℕ) :
    cellAt (setCellAt g x y c) x' y' =
      if x = x' ∧ y = y' ∧ x < g.length ∧ y < (colAt g x).length then c
      else cellAt g x' y' := by
  have hcell : ∀ (h : Grid) (a b : ℕ),
      cellAt h a b = (colAt h a).getD b (Cell.base CellType.Air) :=
    fun _ _ _ => rfl
  rw [hcell, colAt_setCellAt]
  rcases eq_or_ne x x' with he | hne
  · subst he
    rcases Nat.lt_or_ge x g.length with hlt | hge
    · rw [if_pos ⟨rfl, hlt⟩, List.getD_eq_getElem?_getD, List.getElem?_set]
      rcases eq_or_ne y y' with hy | hy
      · subst hy
        rcases Nat.lt_or_ge y (colAt g x).length with hylt | hyge
        · rw [if_pos rfl, if_pos hylt, if_pos ⟨rfl, rfl, hlt, hylt⟩]
          rfl
        · rw [if_pos rfl, if_neg (Nat.not_lt.2 hyge),
            if_neg (by rintro ⟨-, -, -, h⟩; omega)]
          rw [hcell, List.getD_eq_getElem?_getD, List.getElem?_eq_none (by omega)]
      · rw [if_neg hy, if_neg (by rintro ⟨-, h, -⟩; exact hy h), hcell,
          List.getD_eq_getElem?_getD]
    · rw [if_neg (by rintro ⟨-, h⟩; omega), if_neg (by rintro ⟨-, -, h, -⟩; omega), hcell]
  · rw [if_neg (by rintro ⟨h, -⟩; exact hne h), if_neg (by rintro ⟨h, -⟩; exact hne h), hcell]

theorem setCellAt_length (g : Grid) (x y : ℕ) (c : Cell) :
    (setCellAt g x y c).length = g.length := by
  simp [setCellAt]

theorem colAt_setCellAt_len (g : Grid) (x y : ℕ) (c : Cell) (x' : ℕ) :
    (colAt (setCellAt g x y c) x').length = (colAt g x').length := by
  rw [colAt_setCellAt]
  split
  · rename_i h
    rw [List.length_set, h.1]
  · rfl

/-- C8 (amended): fire spread overwrites the destination with a raw
field-for-field copy of the source cell — same velocity, lifetime and
color, no factory construction and no fresh color sample for the
destination — with movedFlag set to true on both the destination and the
source. -/
theorem fire_spread_copies_source (g : Grid) (p q : ℕ × ℕ)
    (hpx : p.1 < g.length) (hpy : p.2 < (colAt g p.1).length)
    (hqx : q.1 < g.length) (hqy : q.2 < (colAt g q.1).length)
    (hpq : p ≠ q) :
    cellAt (spread_to_cell g p q) q.1 q.2 = { cellAt g p.1 p.2 with moved := true } ∧
    cellAt (spread_to_cell g p q) p.1 p.2 = { cellAt g p.1 p.2 with moved := true } := by
  unfold spread_to_cell modifyCellAt
  rcases eq_or_ne p.1 q.1 with h1 | h1
  · have h2 : p.2 ≠ q.2 := fun h2 => hpq (Prod.ext h1 h2)
    rw [h1] at hpx hpy
    simp [cellAt_setCellAt, setCellAt_length, colAt_setCellAt_len, hqx, hqy, hpx, hpy,
      h1, h2, h2.symm]
  · simp [cellAt_setCellAt, setCellAt_length, colAt_setCellAt_len, hqx, hqy, hpx, hpy,
      h1, h1.symm]

theorem fire_spread_copies_source_witness :
    cellAt (spread_to_cell gridFireWood (0, 0) (1, 0)) 1 0
        = { cellAt gridFireWood 0 0 with moved := true } ∧
    cellAt (spread_to_cell gridFireWood (0, 0) (1, 0)) 0 0
        = { cellAt gridFireWood 0 0 with moved := true } :=
  fire_spread_copies_source gridFireWood (0, 0) (1, 0) (by decide) (by decide) (by decide)
    (by decide) (by decide)

/-- Writing a fixed cell `v` at every coordinate of `L` in order. -/
def setFold (v : Cell) (L : List (ℕ × ℕ)) (g : Grid) : Grid :=
  L.foldl (fun h p => setCellAt h p.1 p.2 v) g

theorem setFold_length (v : Cell) (L : List (ℕ × ℕ)) (g : Grid) :
    (setFold v L g).length = g.length := by
  induction L generalizing g with
  | nil => rfl
  | cons p L ih =>
    rw [setFold, List.foldl_cons, ← setFold, ih, setCellAt_length]

theorem setFold_colAt_length (v : Cell) (L : List (ℕ × ℕ)) (g : Grid) (x : ℕ) :
    (colAt (setFold v L g) x).length = (colAt g x).length := by
  induction L generalizing g with
  | nil => rfl
  | cons p L ih =>
    rw [setFold, List.foldl_cons, ← setFold, ih, colAt_setCellAt_len]

theorem setFold_cellAt (v : Cell) (L : List (ℕ × ℕ)) (g : Grid) (x y : ℕ) :
    cellAt (setFold v L g) x y =
      if (x, y) ∈ L ∧ x < g.length ∧ y < (colAt g x).length then v
      else cellAt g x y := by
  induction L generalizing g with
  | nil => simp [setFold]
  | cons p L ih =>
    rw [setFold, List.foldl_cons, ← setFold, ih, setCellAt_length, colAt_setCellAt_len,
      cellAt_setCellAt]
    rcases eq_or_ne (x, y) p with hp | hp
    · subst hp
      by_cases hx : x < g.length
      · by_cases hy : y < (colAt g x).length
        · by_cases hm : (x, y) ∈ L
          · rw [if_pos ⟨hm, hx, hy⟩, if_pos ⟨List.mem_cons_self _ _, hx, hy⟩]
          · rw [if_neg (by rintro ⟨h, -⟩; exact hm h), if_pos ⟨rfl, rfl, hx, hy⟩,
              if_pos ⟨List.mem_cons_self _ _, hx, hy⟩]
        · rw [if_neg (by rintro ⟨-, -, h⟩; exact hy h),
            if_neg (by rintro ⟨-, -, -, h⟩; exact hy h),
            if_neg (by rintro ⟨-, -, h⟩; exact hy h)]
      · rw [if_neg (by rintro ⟨-, h, -⟩; exact hx h),
          if_neg (by rintro ⟨-, -, h, -⟩; exact hx h),
          if_neg (by rintro ⟨-, h, -⟩; exact hx h)]
    · have hinner : ¬(p.1 = x ∧ p.2 = y ∧ p.1 < g.length ∧ p.2 < (colAt g p.1).length) := by
        rintro ⟨h1, h2, -⟩
        exact hp (by rw [← h1, ← h2])
      by_cases hm : (x, y) ∈ L
      · by_cases hx : x < g.length
        · by_cases hy : y < (colAt g x).length
          · rw [if_pos ⟨hm, hx, hy⟩, if_pos ⟨List.mem_cons_of_mem p hm, hx, hy⟩]
          · rw [if_neg (by rintro ⟨-, -, h⟩; exact hy h), if_neg hinner,
              if_neg (by rintro ⟨-, -, h⟩; exact hy h)]
        · rw [if_neg (by rintro ⟨-, h, -⟩; exact hx h), if_neg hinner,
            if_neg (by rintro ⟨-, h, -⟩; exact hx h)]
      · rw [if_neg (by rintro ⟨h, -⟩; exact hm h), if_neg hinner]
        rw [if_neg (by
          rintro ⟨h, -⟩
          rcases List.mem_cons.1 h with h1 | h1
          · exact hp h1
          · exact hm h1)]

theorem grid_ext (g1 g2 : Grid) (hlen : g1.length = g2.length)
    (hcol : ∀ x, (colAt g1 x).length = (colAt g2 x).length)
    (hcell : ∀ x y, cellAt g1 x y = cellAt g2 x y) : g1 = g2 := by
  apply List.ext_getElem?
  intro x
  rcases Nat.lt_or_ge x g1.length with hx | hx
  · have hx2 : x < g2.length := hlen ▸ hx
    rw [List.getElem?_eq_getElem hx, List.getElem?_eq_getElem hx2]
    have hc1 : g1[x] = colAt g1 x := by
      show _ = g1.getD x []
      rw [List.getD_eq_getElem?_getD, List.getElem?_eq_getElem hx]
      rfl
    have hc2 : g2[x] = colAt g2 x := by
      show _ = g2.getD x []
      rw [List.getD_eq_getElem?_getD, List.getElem?_eq_getElem hx2]
      rfl
    rw [hc1, hc2]
    congr 1
    apply List.ext_getElem?
    intro y
    have hcl := hcol x
    rcases Nat.lt_or_ge y (colAt g1 x).length with hy | hy
    · have hy2 : y < (colAt g2 x).length := by omega
      rw [List.getElem?_eq_getElem hy, List.getElem?_eq_getElem hy2]
      have he1 : cellAt g1 x y = (colAt g1 x)[y] := by
        show (colAt g1 x).getD y (Cell.base CellType.Air) = _
        rw [List.getD_eq_getElem?_getD, List.getElem?_eq_getElem hy]
        rfl
      have he2 : cellAt g2 x y = (colAt g2 x)[y] := by
        show (colAt g2 x).getD y (Cell.base CellType.Air) = _
        rw [List.getD_eq_getElem?_getD, List.getElem?_eq_getElem hy2]
        rfl
      rw [← he1, ← he2, hcell]
    · rw [List.getElem?_eq_none (by omega), List.getElem?_eq_none (by omega)]
  · rw [List.getElem?_eq_none (by omega), List.getElem?_eq_none (by omega)]

theorem remove_cells_eq (W H : ℕ) (g : Grid) (cpos : ℕ × ℕ) (rad : ℕ) (r : Rng) :
    remove_cells W H g cpos rad r
      = (setFold (Cell.base CellType.Air) (cursor_region_cell_coordinates W H cpos rad) g, r) := by
  unfold remove_cells setFold
  generalize cursor_region_cell_coordinates W H cpos rad = L
  induction L generalizing g with
  | nil => rfl
  | cons p L ih =>
    rw [List.foldl_cons, List.foldl_cons]
    exact ih (setCellAt g p.1 p.2 (Cell.base CellType.Air))

/-- C9: erase is idempotent — applying `remove_cells` twice over the same
region (threading the returned rng state) yields exactly the grid and rng
state of a single application. -/
theorem erase_idempotent (W H : ℕ) (g : Grid) (cpos : ℕ × ℕ) (rad : ℕ) (r : Rng) :
    remove_cells W H (remove_cells W H g cpos rad r).1 cpos rad
        (remove_cells W H g cpos rad r).2
      = remove_cells W H g cpos rad r := by
  rw [remove_cells_eq W H g cpos rad r]
  rw [remove_cells_eq]
  refine Prod.ext ?_ rfl
  show setFold _ _ (setFold _ _ g) = setFold _ _ g
  apply grid_ext
  · rw [setFold_length]
  · intro x
    rw [setFold_colAt_length]
  · intro x y
    rw [setFold_cellAt, setFold_length, setFold_colAt_length, setFold_cellAt]
    split
    · rfl
    · rfl

theorem intRange_mem (a b z : ℤ) : z ∈ intRange a b ↔ a ≤ z ∧ z < b := by
  unfold intRange
  constructor
  · intro h
    obtain ⟨i, hi, rfl⟩ := List.mem_map.1 h
    have := List.mem_range.1 hi
    omega
  · intro h
    exact List.mem_map.2 ⟨(z - a).toNat, List.mem_range.2 (by omega), by omega⟩

/-- Membership in the painted/erased region: a half-open box clamped to
the grid, intersected with the disc `dx² + dy² ≤ r²`. -/
theorem cursor_region_mem (W H : ℕ) (cpos : ℕ × ℕ) (rad : ℕ) (p : ℕ × ℕ) :
    p ∈ cursor_region_cell_coordinates W H cpos rad ↔
      (max ((cpos.1 : ℤ) - rad) 0 ≤ p.1 ∧ (p.1 : ℤ) < min ((cpos.1 : ℤ) + rad) W ∧
        max ((cpos.2 : ℤ) - rad) 0 ≤ p.2 ∧ (p.2 : ℤ) < min ((cpos.2 : ℤ) + rad) H ∧
        ((cpos.1 : ℤ) - p.1) ^ 2 + ((cpos.2 : ℤ) - p.2) ^ 2 ≤ (rad : ℤ) ^ 2) := by
  simp only [cursor_region_cell_coordinates]
  constructor
  · intro h
    obtain ⟨q, hq, rfl⟩ := List.mem_map.1 h
    obtain ⟨hqf, hdisc⟩ := List.mem_filter.1 hq
    obtain ⟨col, hcol, hqc⟩ := List.mem_flatten.1 hqf
    obtain ⟨x0, hx0, rfl⟩ := List.mem_map.1 hcol
    obtain ⟨y0, hy0, rfl⟩ := List.mem_map.1 hqc
    rw [intRange_mem] at hx0 hy0
    rw [decide_eq_true_eq] at hdisc
    have hx0n : (0 : ℤ) ≤ x0 := le_trans (le_max_right _ _) hx0.1
    have hy0n : (0 : ℤ) ≤ y0 := le_trans (le_max_right _ _) hy0.1
    have hxc : ((x0.toNat : ℕ) : ℤ) = x0 := Int.toNat_of_nonneg hx0n
    have hyc : ((y0.toNat : ℕ) : ℤ) = y0 := Int.toNat_of_nonneg hy0n
    simp only [hxc, hyc]
    exact ⟨hx0.1, hx0.2, hy0.1, hy0.2, hdisc⟩
  · rintro ⟨h1, h2, h3, h4, h5⟩
    apply List.mem_map.2
    refine ⟨((p.1 : ℤ), (p.2 : ℤ)), ?_, by simp⟩
    apply List.mem_filter.2
    refine ⟨?_, by rw [decide_eq_true_eq]; exact h5⟩
    apply List.mem_flatten.2
    refine ⟨_, List.mem_map.2 ⟨(p.1 : ℤ), intRange_mem _ _ _ |>.2 ⟨h1, h2⟩, rfl⟩,
      List.mem_map.2 ⟨(p.2 : ℤ), intRange_mem _ _ _ |>.2 ⟨h3, h4⟩, rfl⟩⟩

theorem put_cell_place_fst (g : Grid) (p : ℕ × ℕ) (sel : CellType) (r : Rng) :
    (put_cell_place g p sel r).1 =
      if is_empty g p.1 p.2 [CellType.Air, CellType.Smoke, CellType.Water] = true
      then setCellAt g p.1 p.2 (Cell.fromType sel r).1 else g := by
  unfold put_cell_place
  split
  · rfl
  · rfl

theorem put_cell_place_cellAt_preserve (g : Grid) (p : ℕ × ℕ) (sel : CellType) (r : Rng)
    (x y : ℕ) (h : (cellAt g x y).ty ∉ [CellType.Air, CellType.Smoke, CellType.Water]) :
    cellAt (put_cell_place g p sel r).1 x y = cellAt g x y := by
  rw [put_cell_place_fst]
  split
  · rename_i hemp
    rw [cellAt_setCellAt, if_neg]
    rintro ⟨h1, h2, -⟩
    rw [is_empty, decide_eq_true_eq] at hemp
    rw [← h1, ← h2] at h
    exact h hemp
  · rfl

theorem put_cell_place_cellAt_ne (g : Grid) (p : ℕ × ℕ) (sel : CellType) (r : Rng)
    (x y : ℕ) (h : p ≠ (x, y)) :
    cellAt (put_cell_place g p sel r).1 x y = cellAt g x y := by
  rw [put_cell_place_fst]
  split
  · rw [cellAt_setCellAt, if_neg]
    rintro ⟨h1, h2, -⟩
    exact h (Prod.ext h1 h2)
  · rfl

theorem put_cell_place_length (g : Grid) (p : ℕ × ℕ) (sel : CellType) (r : Rng) :
    (put_cell_place g p sel r).1.length = g.length := by
  rw [put_cell_place_fst]
  split
  · rw [setCellAt_length]
  · rfl

theorem put_cell_place_colAt_len (g : Grid) (p : ℕ × ℕ) (sel : CellType) (r : Rng) (x : ℕ) :
    (colAt (put_cell_place g p sel r).1 x).length = (colAt g x).length := by
  rw [put_cell_place_fst]
  split
  · rw [colAt_setCellAt_len]
  · rfl

theorem put_cell_step_cellAt_preserve (sel : CellType) (s : Grid × Rng) (p : ℕ × ℕ)
    (x y : ℕ) (h : (cellAt s.1 x y).ty ∉ [CellType.Air, CellType.Smoke, CellType.Water]) :
    cellAt (put_cell_step sel s p).1 x y = cellAt s.1 x y := by
  cases sel <;> simp only [put_cell_step, Rng.f] <;> (try split) <;>
    first
      | rfl
      | exact put_cell_place_cellAt_preserve _ _ _ _ _ _ h

theorem put_cell_step_cellAt_ne (sel : CellType) (s : Grid × Rng) (p : ℕ × ℕ)
    (x y : ℕ) (h : p ≠ (x, y)) :
    cellAt (put_cell_step sel s p).1 x y = cellAt s.1 x y := by
  cases sel <;> simp only [put_cell_step, Rng.f] <;> (try split) <;>
    first
      | rfl
      | exact put_cell_place_cellAt_ne _ _ _ _ _ _ h

theorem put_cell_step_length (sel : CellType) (s : Grid × Rng) (p : ℕ × ℕ) :
    (put_cell_step sel s p).1.length = s.1.length := by
  cases sel <;> simp only [put_cell_step, Rng.f] <;> (try split) <;>
    first
      | rfl
      | exact put_cell_place_length _ _ _ _

theorem put_cell_step_colAt_len (sel : CellType) (s : Grid × Rng) (p : ℕ × ℕ) (x : ℕ) :
    (colAt (put_cell_step sel s p).1 x).length = (colAt s.1 x).length := by
  cases sel <;> simp only [put_cell_step, Rng.f] <;> (try split) <;>
    first
      | rfl
      | exact put_cell_place_colAt_len _ _ _ _ _

theorem putFold_preserve (sel : CellType) (L : List (ℕ × ℕ)) :
    ∀ (s : Grid × Rng) (x y : ℕ),
      (cellAt s.1 x y).ty ∉ [CellType.Air, CellType.Smoke, CellType.Water] →
      cellAt (L.foldl (put_cell_step sel) s).1 x y = cellAt s.1 x y := by
  induction L with
  | nil => intro s x y _; rfl
  | cons p L ih =>
    intro s x y h
    rw [List.foldl_cons]
    rw [ih (put_cell_step sel s p) x y
      (by rw [put_cell_step_cellAt_preserve sel s p x y h]; exact h)]
    exact put_cell_step_cellAt_preserve sel s p x y h

/-- The Wood arm of the loop body is an unconditional placement. -/
theorem put_cell_step_wood (s : Grid × Rng) (p : ℕ × ℕ) :
    put_cell_step CellType.Wood s p = put_cell_place s.1 p CellType.Wood s.2 := rfl

theorem putFold_wood_fills (L : List (ℕ × ℕ)) :
    ∀ (s : Grid × Rng) (x y : ℕ), (x, y) ∈ L →
      x < s.1.length → y < (colAt s.1 x).length →
      (cellAt s.1 x y).ty ∈ [CellType.Air, CellType.Smoke, CellType.Water] →
      (cellAt (L.foldl (put_cell_step CellType.Wood) s).1 x y).ty = CellType.Wood := by
  induction L with
  | nil => intro s x y h; cases h
  | cons p L ih =>
    intro s x y hmem hx hy hpaint
    rw [List.foldl_cons]
    rcases eq_or_ne p (x, y) with hp | hp
    · subst hp
      have hwrite : cellAt (put_cell_step CellType.Wood s (x, y)).1 x y
          = (Cell.fromType CellType.Wood s.2).1 := by
        rw [put_cell_step_wood, put_cell_place_fst,
          if_pos (by rw [is_empty, decide_eq_true_eq]; exact hpaint),
          cellAt_setCellAt, if_pos ⟨rfl, rfl, hx, hy⟩]
      have hwood : (cellAt (put_cell_step CellType.Wood s (x, y)).1 x y).ty
          = CellType.Wood := by
        rw [hwrite]
        rfl
      rw [putFold_preserve CellType.Wood L _ x y (by rw [hwood]; decide)]
      exact hwood
    · have hm2 : (x, y) ∈ L := by
        rcases List.mem_cons.1 hmem with h' | h'
        · exact absurd h'.symm hp
        · exact h'
      apply ih (put_cell_step CellType.Wood s p) x y hm2
      · rw [put_cell_step_length]
        exact hx
      · rw [put_cell_step_colAt_len]
        exact hy
      · rw [put_cell_step_cellAt_ne _ _ _ _ _ hp]
        exact hpaint

/-- The Steam arm of the loop body is an unconditional placement, like
Wood's. -/
theorem put_cell_step_steam (s : Grid × Rng) (p : ℕ × ℕ) :
    put_cell_step CellType.Steam s p = put_cell_place s.1 p CellType.Steam s.2 := rfl

theorem put_cell_step_trickle_skip (sel : CellType)
    (hsel : sel ∈ [CellType.Sand, CellType.Water, CellType.Fire, CellType.Smoke])
    (s : Grid × Rng) (p : ℕ × ℕ) (hf : Rat.divInt 1 8 < (Rng.f s.2).1) :
    put_cell_step sel s p = (s.1, (Rng.f s.2).2) := by
  cases sel <;>
    first
    | exact absurd hsel (by decide)
    | (simp only [put_cell_step]
       split
       · rfl
       · rename_i hcond
         exact absurd hf hcond)

theorem put_cell_step_trickle_place (sel : CellType)
    (hsel : sel ∈ [CellType.Sand, CellType.Water, CellType.Fire, CellType.Smoke])
    (s : Grid × Rng) (p : ℕ × ℕ) (hf : ¬Rat.divInt 1 8 < (Rng.f s.2).1) :
    put_cell_step sel s p = put_cell_place s.1 p sel (Rng.f s.2).2 := by
  cases sel <;>
    first
    | exact absurd hsel (by decide)
    | (simp only [put_cell_step]
       split
       · rename_i hcond
         exact absurd hcond hf
       · rfl)

theorem put_cell_step_unconditional (sel : CellType)
    (hsel : sel ∈ [CellType.Wood, CellType.Steam]) (s : Grid × Rng) (p : ℕ × ℕ) :
    put_cell_step sel s p = put_cell_place s.1 p sel s.2 := by
  cases sel <;> first | exact absurd hsel (by decide) | rfl

theorem putFold_steam_fills (L : List (ℕ × ℕ)) :
    ∀ (s : Grid × Rng) (x y : ℕ), (x, y) ∈ L →
      x < s.1.length → y < (colAt s.1 x).length →
      (cellAt s.1 x y).ty ∈ [CellType.Air, CellType.Smoke, CellType.Water] →
      (cellAt (L.foldl (put_cell_step CellType.Steam) s).1 x y).ty = CellType.Steam := by
  induction L with
  | nil => intro s x y h; cases h
  | cons p L ih =>
    intro s x y hmem hx hy hpaint
    rw [List.foldl_cons]
    rcases eq_or_ne p (x, y) with hp | hp
    · subst hp
      have hwrite : cellAt (put_cell_step CellType.Steam s (x, y)).1 x y
          = (Cell.fromType CellType.Steam s.2).1 := by
        rw [put_cell_step_steam, put_cell_place_fst,
          if_pos (by rw [is_empty, decide_eq_true_eq]; exact hpaint),
          cellAt_setCellAt, if_pos ⟨rfl, rfl, hx, hy⟩]
      have hsteam : (cellAt (put_cell_step CellType.Steam s (x, y)).1 x y).ty
          = CellType.Steam := by
        rw [hwrite]
        rfl
      rw [putFold_preserve CellType.Steam L _ x y (by rw [hsteam]; decide)]
      exact hsteam
    · have hm2 : (x, y) ∈ L := by
        rcases List.mem_cons.1 hmem with h' | h'
        · exact absurd h'.symm hp
        · exact h'
      apply ih (put_cell_step CellType.Steam s p) x y hm2
      · rw [put_cell_step_length]
        exact hx
      · rw [put_cell_step_colAt_len]
        exact hy
      · rw [put_cell_step_cellAt_ne _ _ _ _ _ hp]
        exact hpaint

/-- C7 (amended): painting considers exactly the coordinates of the
half-open clamped box `[max(cx−r,0), min(cx+r,W)) × [max(cy−r,0),
min(cy+r,H))` that satisfy `dx² + dy² ≤ r²` (the arcs at `x = cx + r` and
`y = cy + r` are excluded); a cell whose material is outside
`{Air, Water, Smoke}` is never changed by painting; painting Wood (a 100%
material) turns every considered coordinate whose cell is paintable into
Wood; a placement overwrites the target with a factory-built cell of the
selected material exactly when the target's current material is paintable;
Sand, Water, Fire and Smoke draw one roll per considered coordinate and
are skipped (grid unchanged) exactly when the roll exceeds 1/8 — the
12.5% trickle — placing otherwise; Wood and Steam place unconditionally,
consuming no roll; and painting Steam, like Wood, turns every considered
paintable coordinate into Steam. -/
theorem paint_region_spec :
    (∀ (W H : ℕ) (cpos : ℕ × ℕ) (rad : ℕ) (p : ℕ × ℕ),
      p ∈ cursor_region_cell_coordinates W H cpos rad ↔
        (max ((cpos.1 : ℤ) - rad) 0 ≤ p.1 ∧ (p.1 : ℤ) < min ((cpos.1 : ℤ) + rad) W ∧
          max ((cpos.2 : ℤ) - rad) 0 ≤ p.2 ∧ (p.2 : ℤ) < min ((cpos.2 : ℤ) + rad) H ∧
          ((cpos.1 : ℤ) - p.1) ^ 2 + ((cpos.2 : ℤ) - p.2) ^ 2 ≤ (rad : ℤ) ^ 2)) ∧
    (∀ (W H : ℕ) (g : Grid) (sel : CellType) (cpos : ℕ × ℕ) (rad : ℕ) (r : Rng) (x y : ℕ),
      (cellAt g x y).ty ∉ [CellType.Air, CellType.Smoke, CellType.Water] →
      cellAt (put_cell W H g sel cpos rad r).1 x y = cellAt g x y) ∧
    (∀ (W H : ℕ) (g : Grid) (cpos : ℕ × ℕ) (rad : ℕ) (r : Rng) (x y : ℕ),
      (x, y) ∈ cursor_region_cell_coordinates W H cpos rad →
      x < g.length → y < (colAt g x).length →
      (cellAt g x y).ty ∈ [CellType.Air, CellType.Smoke, CellType.Water] →
      (cellAt (put_cell W H g CellType.Wood cpos rad r).1 x y).ty = CellType.Wood) ∧
    (∀ (g : Grid) (p : ℕ × ℕ) (sel : CellType) (r : Rng),
      (put_cell_place g p sel r).1 =
        if is_empty g p.1 p.2 [CellType.Air, CellType.Smoke, CellType.Water] = true
        then setCellAt g p.1 p.2 (Cell.fromType sel r).1 else g) ∧
    (∀ sel : CellType,
      sel ∈ [CellType.Sand, CellType.Water, CellType.Fire, CellType.Smoke] →
      ∀ (s : Grid × Rng) (p : ℕ × ℕ),
        (Rat.divInt 1 8 < (Rng.f s.2).1 → put_cell_step sel s p = (s.1, (Rng.f s.2).2)) ∧
        (¬Rat.divInt 1 8 < (Rng.f s.2).1 →
          put_cell_step sel s p = put_cell_place s.1 p sel (Rng.f s.2).2)) ∧
    (∀ sel : CellType, sel ∈ [CellType.Wood, CellType.Steam] →
      ∀ (s : Grid × Rng) (p : ℕ × ℕ),
        put_cell_step sel s p = put_cell_place s.1 p sel s.2) ∧
    (∀ (W H : ℕ) (g : Grid) (cpos : ℕ × ℕ) (rad : ℕ) (r : Rng) (x y : ℕ),
      (x, y) ∈ cursor_region_cell_coordinates W H cpos rad →
      x < g.length → y < (colAt g x).length →
      (cellAt g x y).ty ∈ [CellType.Air, CellType.Smoke, CellType.Water] →
      (cellAt (put_cell W H g CellType.Steam cpos rad r).1 x y).ty = CellType.Steam) := by
  refine ⟨cursor_region_mem, ?_, ?_, ?_, ?_, ?_, ?_⟩
  · intro W H g sel cpos rad r x y h
    exact putFold_preserve sel _ (g, r) x y h
  · intro W H g cpos rad r x y hmem hx hy hpaint
    exact putFold_wood_fills _ (g, r) x y hmem hx hy hpaint
  · intro g p sel r
    exact put_cell_place_fst g p sel r
  · intro sel hsel s p
    exact ⟨put_cell_step_trickle_skip sel hsel s p,
      put_cell_step_trickle_place sel hsel s p⟩
  · intro sel hsel s p
    exact put_cell_step_unconditional sel hsel s p
  · intro W H g cpos rad r x y hmem hx hy hpaint
    exact putFold_steam_fills _ (g, r) x y hmem hx hy hpaint

theorem paint_region_spec_witness :
    ((1, 0) ∈ cursor_region_cell_coordinates 3 3 (1, 1) 1) ∧
    (cellAt (put_cell 3 3 gridFireWood CellType.Sand (0, 0) 1 (constRng 0 false 0)).1 0 0
      = fireCell) ∧
    ((cellAt (put_cell 3 3 gridAir3 CellType.Wood (1, 1) 1 (constRng 0 false 0)).1 1 0).ty
      = CellType.Wood) ∧
    (put_cell_step CellType.Sand (gridAir3, constRng 1 false 0) (1, 1)
      = (gridAir3, (Rng.f (constRng 1 false 0)).2)) ∧
    (put_cell_step CellType.Sand (gridAir3, constRng 0 false 0) (1, 1)
      = put_cell_place gridAir3 (1, 1) CellType.Sand (Rng.f (constRng 0 false 0)).2) ∧
    (put_cell_step CellType.Steam (gridAir3, constRng 1 false 0) (1, 1)
      = put_cell_place gridAir3 (1, 1) CellType.Steam (constRng 1 false 0)) ∧
    ((cellAt (put_cell 3 3 gridAir3 CellType.Steam (1, 1) 1 (constRng 1 false 0)).1 1 0).ty
      = CellType.Steam) := by
  refine ⟨?_, ?_, ?_, ?_, ?_, ?_, ?_⟩
  · exact (paint_region_spec.1 3 3 (1, 1) 1 (1, 0)).2 (by decide)
  · exact paint_region_spec.2.1 3 3 gridFireWood CellType.Sand (0, 0) 1 (constRng 0 false 0)
      0 0 (by decide)
  · exact paint_region_spec.2.2.1 3 3 gridAir3 (1, 1) 1 (constRng 0 false 0) 1 0 (by decide)
      (by decide) (by decide) (by decide)
  · exact (paint_region_spec.2.2.2.2.1 CellType.Sand (by decide)
      (gridAir3, constRng 1 false 0) (1, 1)).1 (by decide)
  · exact (paint_region_spec.2.2.2.2.1 CellType.Sand (by decide)
      (gridAir3, constRng 0 false 0) (1, 1)).2 (by decide)
  · exact paint_region_spec.2.2.2.2.2.1 CellType.Steam (by decide)
      (gridAir3, constRng 1 false 0) (1, 1)
  · exact paint_region_spec.2.2.2.2.2.2 3 3 gridAir3 (1, 1) 1 (constRng 1 false 0) 1 0
      (by decide) (by decide) (by decide) (by decide)

theorem cellAt_modify_ty (g : Grid) (a b : ℕ) (f : Cell → Cell)
    (hf : ∀ c, (f c).ty = c.ty) (x y : ℕ) :
    (cellAt (modifyCellAt g a b f) x y).ty = (cellAt g x y).ty := by
  unfold modifyCellAt
  rw [cellAt_setCellAt]
  split
  · rename_i h
    rw [hf, ← h.1, ← h.2.1]
  · rfl

/-- Every swap logged by `generic_fall` has the processed cell as its
pre-swap source and a destination whose material is in the fall-through
set. -/
theorem generic_fall_log (W H : ℕ) (g : Grid) (pos : ℕ × ℕ) (E : List CellType)
    (mv acc : ℚ) (inv : Bool) (r : Rng) (e : SwapEv)
    (he : e ∈ (generic_fall W H g pos E mv acc inv r).2.2.2) :
    e.srcPre = cellAt g pos.1 pos.2 ∧ e.dstPre.ty ∈ E := by
  unfold generic_fall at he
  split at he <;>
  · simp only [] at he
    split at he
    · rename_i fd hfd
      rw [List.mem_singleton.1 he]
      exact ⟨rfl, furthest_by_vector_mem _ _ _ _ _ _ _ _ hfd⟩
    · rename_i hfd0
      split at he
      · rename_i l rr hl hr
        split at he
        · rw [List.mem_singleton.1 he]
          exact ⟨rfl, furthest_by_vector_mem _ _ _ _ _ _ _ _ hl⟩
        · rw [List.mem_singleton.1 he]
          exact ⟨rfl, furthest_by_vector_mem _ _ _ _ _ _ _ _ hr⟩
      · rename_i l hl hr
        rw [List.mem_singleton.1 he]
        exact ⟨rfl, furthest_by_vector_mem _ _ _ _ _ _ _ _ hl⟩
      · rename_i rr hl hr
        rw [List.mem_singleton.1 he]
        exact ⟨rfl, furthest_by_vector_mem _ _ _ _ _ _ _ _ hr⟩
      · cases he

/-- When `generic_fall` finds no destination it logs nothing. -/
theorem generic_fall_none_log (W H : ℕ) (g : Grid) (pos : ℕ × ℕ) (E : List CellType)
    (mv acc : ℚ) (inv : Bool) (r : Rng)
    (h : (generic_fall W H g pos E mv acc inv r).1 = none) :
    (generic_fall W H g pos E mv acc inv r).2.2.2 = [] := by
  unfold generic_fall at h ⊢
  simp only [] at h ⊢
  split
  · rename_i fd hfd
    rw [hfd] at h
    simp only [] at h
    cases h
  · rename_i hfd0
    rw [hfd0] at h
    simp only [] at h
    split
    · rename_i l rr hl hr
      rw [hl, hr] at h
      simp only [] at h
      split at h
      · cases h
      · cases h
    · rename_i l hl hr
      rw [hl, hr] at h
      simp only [] at h
      cases h
    · rename_i rr hl hr
      rw [hl, hr] at h
      simp only [] at h
      cases h
    · rfl

/-- When `generic_fall` finds no destination the resulting grid only has a
halved velocity at the processed position: material everywhere is
unchanged. -/
theorem generic_fall_none_ty (W H : ℕ) (g : Grid) (pos : ℕ × ℕ) (E : List CellType)
    (mv acc : ℚ) (inv : Bool) (r : Rng) (x y : ℕ)
    (h : (generic_fall W H g pos E mv acc inv r).1 = none) :
    (cellAt (generic_fall W H g pos E mv acc inv r).2.1 x y).ty = (cellAt g x y).ty := by
  unfold generic_fall at h ⊢
  simp only [] at h ⊢
  split
  · rename_i fd hfd
    rw [hfd] at h
    simp only [] at h
    cases h
  · rename_i hfd0
    rw [hfd0] at h
    simp only [] at h
    split
    · rename_i l rr hl hr
      rw [hl, hr] at h
      simp only [] at h
      split at h
      · cases h
      · cases h
    · rename_i l hl hr
      rw [hl, hr] at h
      simp only [] at h
      cases h
    · rename_i rr hl hr
      rw [hl, hr] at h
      simp only [] at h
      cases h
    · show (cellAt (setVelocityAt g pos (qHalf (cellAt g pos.1 pos.2).velocity)) x y).ty
          = (cellAt g x y).ty
      exact cellAt_modify_ty g pos.1 pos.2
        (fun c => { c with velocity := qHalf (cellAt g pos.1 pos.2).velocity })
        (fun c => rfl) x y

/-- Every swap logged by `generic_fluid` starts from the processed cell's
material and lands on a material from the empty set. -/
theorem generic_fluid_log (W H : ℕ) (g : Grid) (pos : ℕ × ℕ) (E : List CellType)
    (mv acc : ℚ) (inv : Bool) (r : Rng) (e : SwapEv)
    (he : e ∈ (generic_fluid W H g pos E mv acc inv r).2.2.2) :
    e.srcPre.ty = (cellAt g pos.1 pos.2).ty ∧ e.dstPre.ty ∈ E := by
  unfold generic_fluid at he
  split at he
  · rename_i fr g1 r1 log1 heq
    have hfall := generic_fall_log W H g pos E mv acc inv r e (by rw [heq]; exact he)
    exact ⟨congrArg Cell.ty hfall.1, hfall.2⟩
  · rename_i g1 r1 log1 heq
    have hnone : (generic_fall W H g pos E mv acc inv r).1 = none := by
      rw [heq]
    have hlog : log1 = [] := by
      have := generic_fall_none_log W H g pos E mv acc inv r hnone
      rw [heq] at this
      exact this
    have hty : ∀ x y, (cellAt g1 x y).ty = (cellAt g x y).ty := by
      intro x y
      have := generic_fall_none_ty W H g pos E mv acc inv r x y hnone
      rw [heq] at this
      exact this
    simp only [] at he
    split at he
    · rename_i l rr hl hr
      split at he
      · rw [hlog, List.nil_append, List.mem_singleton] at he
        rw [he]
        exact ⟨hty pos.1 pos.2, furthest_by_vector_mem _ _ _ _ _ _ _ _ hr⟩
      · rw [hlog, List.nil_append, List.mem_singleton] at he
        rw [he]
        exact ⟨hty pos.1 pos.2, furthest_by_vector_mem _ _ _ _ _ _ _ _ hl⟩
    · rename_i l hl hr
      rw [hlog, List.nil_append, List.mem_singleton] at he
      rw [he]
      exact ⟨hty pos.1 pos.2, furthest_by_vector_mem _ _ _ _ _ _ _ _ hl⟩
    · rename_i rr hl hr
      rw [hlog, List.nil_append, List.mem_singleton] at he
      rw [he]
      exact ⟨hty pos.1 pos.2, furthest_by_vector_mem _ _ _ _ _ _ _ _ hr⟩
    · rw [hlog] at he
      cases he

theorem update_sand_log (W H : ℕ) (g : Grid) (x y : ℕ) (E : List CellType) (r : Rng)
    (e : SwapEv) (he : e ∈ (update_sand W H g x y E r).2.2) :
    e.srcPre.ty = (cellAt g x y).ty ∧ e.dstPre.ty ∈ E := by
  unfold update_sand at he
  split at he
  rename_i fres g1 r1 log1 heq
  have := generic_fall_log W H g (x, y) E MAX_VELOCITY ACCELERATION false r e
    (by rw [heq]; exact he)
  exact ⟨congrArg Cell.ty this.1, this.2⟩

theorem update_water_log (W H : ℕ) (g : Grid) (x y : ℕ) (E : List CellType) (r : Rng)
    (e : SwapEv) (he : e ∈ (update_water W H g x y E r).2.2) :
    e.srcPre.ty = (cellAt g x y).ty ∧ e.dstPre.ty ∈ E := by
  unfold update_water at he
  simp only [] at he
  split at he
  · have := generic_fluid_log W H
      (modifyCellAt g x y (fun cc =>
        { cc with color := (cell_type_color_random (cellAt g x y) (Rng.f r).2).1 }))
      (x, y) E MAX_VELOCITY ACCELERATION false
      (cell_type_color_random (cellAt g x y) (Rng.f r).2).2 e he
    refine ⟨?_, this.2⟩
    rw [this.1]
    exact cellAt_modify_ty g x y
      (fun cc => { cc with color := (cell_type_color_random (cellAt g x y) (Rng.f r).2).1 })
      (fun c => rfl) x y
  · exact generic_fluid_log W H g (x, y) E MAX_VELOCITY ACCELERATION false (Rng.f r).2 e he

theorem update_smoke_log (W H : ℕ) (g : Grid) (x y : ℕ) (E : List CellType) (r : Rng)
    (e : SwapEv) (he : e ∈ (update_smoke W H g x y E r).2.2) :
    e.srcPre.ty = (cellAt g x y).ty ∧ e.dstPre.ty ∈ E := by
  unfold update_smoke at he
  split at he
  · exact (List.not_mem_nil e he).elim
  · simp only [] at he
    have := generic_fluid_log W H
      (modifyCellAt (modifyCellAt g x y (fun c => { c with lifetime := c.lifetime - 1 })) x y
        (fun c => { c with color := (interpolate_color SMOKE_COLOR_LIGHT SMOKE_COLOR_DARK
          (Rat.divInt (c.lifetime : ℤ) (SMOKE_LIFETIME : ℤ))) }))
      (x, y) E SMOKE_MAX_VELOCITY SMOKE_ACCELERATION true r e he
    refine ⟨?_, this.2⟩
    rw [this.1]
    exact (cellAt_modify_ty _ x y
      (fun c => { c with color := (interpolate_color SMOKE_COLOR_LIGHT SMOKE_COLOR_DARK
        (Rat.divInt (c.lifetime : ℤ) (SMOKE_LIFETIME : ℤ))) }) (fun c => rfl) x y).trans
      (cellAt_modify_ty g x y (fun c => { c with lifetime := c.lifetime - 1 })
        (fun c => rfl) x y)

theorem update_steam_log (W H : ℕ) (g : Grid) (x y : ℕ) (E : List CellType) (r : Rng)
    (e : SwapEv) (he : e ∈ (update_steam W H g x y E r).2.2) :
    e.srcPre.ty = (cellAt g x y).ty ∧ e.dstPre.ty ∈ E := by
  unfold update_steam at he
  split at he
  · simp only [] at he
    split at he
    · exact (List.not_mem_nil e he).elim
    · exact (List.not_mem_nil e he).elim
  · simp only [] at he
    have := generic_fluid_log W H
      (modifyCellAt (modifyCellAt g x y (fun c => { c with lifetime := c.lifetime - 1 })) x y
        (fun c => { c with color := (interpolate_color STEAM_COLOR_LIGHT STEAM_COLOR_DARK
          (Rat.divInt (c.lifetime : ℤ) (STEAM_LIFETIME : ℤ))) }))
      (x, y) E STEAM_MAX_VELOCITY STEAM_ACCELERATION true r e he
    refine ⟨?_, this.2⟩
    rw [this.1]
    exact (cellAt_modify_ty _ x y
      (fun c => { c with color := (interpolate_color STEAM_COLOR_LIGHT STEAM_COLOR_DARK
        (Rat.divInt (c.lifetime : ℤ) (STEAM_LIFETIME : ℤ))) }) (fun c => rfl) x y).trans
      (cellAt_modify_ty g x y (fun c => { c with lifetime := c.lifetime - 1 })
        (fun c => rfl) x y)

theorem update_cell_log (W H i : ℕ) (g : Grid) (x y : ℕ) (r : Rng) (e : SwapEv)
    (he : e ∈ (update_cell W H i g x y r).2.2) :
    e.srcPre.ty ∈ [CellType.Sand, CellType.Water, CellType.Smoke, CellType.Steam] ∧
    e.dstPre.ty ∈ [CellType.Air, CellType.Water, CellType.Steam, CellType.Smoke] := by
  have hsub : ∀ t : CellType,
      t ∈ [CellType.Air, CellType.Water, CellType.Steam, CellType.Smoke] →
      t ∈ [CellType.Air, CellType.Water, CellType.Steam, CellType.Smoke] := fun t h => h
  have hsubW : ∀ t : CellType, t ∈ [CellType.Air, CellType.Steam, CellType.Smoke] →
      t ∈ [CellType.Air, CellType.Water, CellType.Steam, CellType.Smoke] := by decide
  have hsubA : ∀ t : CellType, t ∈ [CellType.Air] →
      t ∈ [CellType.Air, CellType.Water, CellType.Steam, CellType.Smoke] := by decide
  unfold update_cell at he
  split at he
  · exact (List.not_mem_nil e he).elim
  · simp only [] at he
    by_cases hm : (cellAt g x y).moved = true
    · rw [if_pos hm] at he
      exact (List.not_mem_nil e he).elim
    · rw [if_neg hm] at he
      split at he
      · rename_i hty
        have := update_sand_log W H g x y _ r e he
        rw [hty] at this
        exact ⟨by rw [this.1]; decide, this.2⟩
      · rename_i hty
        have := update_water_log W H g x y _ r e he
        rw [hty] at this
        exact ⟨by rw [this.1]; decide, hsubW _ this.2⟩
      · exact (List.not_mem_nil e he).elim
      · rename_i hty
        have := update_smoke_log W H g x y _ r e he
        rw [hty] at this
        exact ⟨by rw [this.1]; decide, hsubA _ this.2⟩
      · rename_i hty
        have := update_steam_log W H g x y _ r e he
        rw [hty] at this
        exact ⟨by rw [this.1]; decide, hsubA _ this.2⟩
      · exact (List.not_mem_nil e he).elim

theorem update_cells_log (W H : ℕ) (g : Grid) (r : Rng) (e : SwapEv)
    (he : e ∈ (update_cells W H g r).2.2) :
    e.srcPre.ty ∈ [CellType.Sand, CellType.Water, CellType.Smoke, CellType.Steam] ∧
    e.dstPre.ty ∈ [CellType.Air, CellType.Water, CellType.Steam, CellType.Smoke] := by
  have hfold : ∀ (L : List (ℕ × ℕ × ℕ)) (s : Grid × Rng × List SwapEv),
      (∀ e' ∈ s.2.2,
        e'.srcPre.ty ∈ [CellType.Sand, CellType.Water, CellType.Smoke, CellType.Steam] ∧
        e'.dstPre.ty ∈ [CellType.Air, CellType.Water, CellType.Steam, CellType.Smoke]) →
      ∀ e' ∈ (L.foldl (update_cells_step W H) s).2.2,
        e'.srcPre.ty ∈ [CellType.Sand, CellType.Water, CellType.Smoke, CellType.Steam] ∧
        e'.dstPre.ty ∈ [CellType.Air, CellType.Water, CellType.Steam, CellType.Smoke] := by
    intro L
    induction L with
    | nil => exact fun s h => h
    | cons t L ih =>
      intro s hs e' he'
      refine ih (update_cells_step W H s t) ?_ e' he'
      intro e2 he2
      rcases s with ⟨sg, sr, slog⟩
      unfold update_cells_step at he2
      simp only [] at he2
      rcases List.mem_append.1 he2 with h2 | h2
      · exact hs e2 h2
      · exact update_cell_log W H t.1 sg t.2.1 t.2.2 sr e2 h2
  unfold update_cells at he
  exact hfold (visitList W H) (g, r, [])
    (fun e' h => (List.not_mem_nil e' h).elim) e he

/-- C10: Fire and Wood cells are never relocated by movement in a tick:
neither material appears in any dispatch's fall-through/empty set, and
every swap logged by a full tick has a source of a mobile material
(Sand, Water, Smoke or Steam) and a destination drawn from a fall-through
set — so neither endpoint of any swap is a Fire or Wood cell. (Fire
spread is a `spread_to_cell` copy, which performs no swap and is never
logged.) -/
theorem fire_wood_never_relocated :
    (CellType.Fire ∉ [CellType.Air, CellType.Water, CellType.Steam, CellType.Smoke] ∧
      CellType.Wood ∉ [CellType.Air, CellType.Water, CellType.Steam, CellType.Smoke] ∧
      CellType.Fire ∉ [CellType.Air, CellType.Steam, CellType.Smoke] ∧
      CellType.Wood ∉ [CellType.Air, CellType.Steam, CellType.Smoke] ∧
      CellType.Fire ∉ [CellType.Air] ∧ CellType.Wood ∉ [CellType.Air]) ∧
    ∀ (W H : ℕ) (g : Grid) (r : Rng) (e : SwapEv), e ∈ (update_cells W H g r).2.2 →
      e.srcPre.ty ≠ CellType.Fire ∧ e.srcPre.ty ≠ CellType.Wood ∧
      e.dstPre.ty ≠ CellType.Fire ∧ e.dstPre.ty ≠ CellType.Wood := by
  refine ⟨by decide, ?_⟩
  intro W H g r e he
  have h := update_cells_log W H g r e he
  have hsrc : ∀ t : CellType,
      t ∈ [CellType.Sand, CellType.Water, CellType.Smoke, CellType.Steam] →
      t ≠ CellType.Fire ∧ t ≠ CellType.Wood := by decide
  have hdst : ∀ t : CellType,
      t ∈ [CellType.Air, CellType.Water, CellType.Steam, CellType.Smoke] →
      t ≠ CellType.Fire ∧ t ≠ CellType.Wood := by decide
  exact ⟨(hsrc _ h.1).1, (hsrc _ h.1).2, (hdst _ h.2).1, (hdst _ h.2).2⟩

theorem fire_wood_never_relocated_witness :
    (⟨(0, 0), (0, 2), sandCell, airCell⟩ : SwapEv).srcPre.ty ≠ CellType.Fire ∧
    (⟨(0, 0), (0, 2), sandCell, airCell⟩ : SwapEv).srcPre.ty ≠ CellType.Wood ∧
    (⟨(0, 0), (0, 2), sandCell, airCell⟩ : SwapEv).dstPre.ty ≠ CellType.Fire ∧
    (⟨(0, 0), (0, 2), sandCell, airCell⟩ : SwapEv).dstPre.ty ≠ CellType.Wood :=
  fire_wood_never_relocated.2 1 3 gridSandTop (constRng 1 false 0)
    ⟨(0, 0), (0, 2), sandCell, airCell⟩ (by decide)

theorem fromType_velocity (ty : CellType) (r : Rng) : (Cell.fromType ty r).1.velocity = 1 := by
  cases ty <;> rfl

theorem fromType_ty (ty : CellType) (r : Rng) : (Cell.fromType ty r).1.ty = ty := by
  cases ty <;> rfl

theorem cellOk_fromType (ty : CellType) (r : Rng) : CellOk (Cell.fromType ty r).1 := by
  constructor
  · rw [fromType_velocity]
    norm_num
  · rw [fromType_velocity, fromType_ty]
    cases ty <;> decide

theorem cellOk_cellAt (g : Grid) (hg : VelInv g) (x y : ℕ) : CellOk (cellAt g x y) := by
  unfold cellAt
  rcases Nat.lt_or_ge x g.length with hx | hx
  · have hcol : g.getD x [] = g[x] := by
      rw [List.getD_eq_getElem?_getD, List.getElem?_eq_getElem hx, Option.getD_some]
    rw [hcol]
    rcases Nat.lt_or_ge y (g[x]).length with hy | hy
    · rw [List.getD_eq_getElem?_getD, List.getElem?_eq_getElem hy, Option.getD_some]
      exact hg g[x] (List.getElem_mem hx) (g[x])[y] (List.getElem_mem hy)
    · rw [List.getD_eq_getElem?_getD, List.getElem?_eq_none hy, Option.getD_none]
      decide
  · have hcol : g.getD x [] = [] := by
      rw [List.getD_eq_getElem?_getD, List.getElem?_eq_none hx, Option.getD_none]
    rw [hcol, List.getD_eq_getElem?_getD, List.getElem?_eq_none (Nat.zero_le y),
      Option.getD_none]
    decide

theorem velInv_setCellAt (g : Grid) (x y : ℕ) (c : Cell) (hg : VelInv g) (hc : CellOk c) :
    VelInv (setCellAt g x y c) := by
  intro col hcol c' hc'
  rcases List.mem_or_eq_of_mem_set hcol with h | h
  · exact hg col h c' hc'
  · subst h
    rcases List.mem_or_eq_of_mem_set hc' with h' | h'
    · rcases Nat.lt_or_ge x g.length with hx | hx
      · rw [List.getD_eq_getElem?_getD, List.getElem?_eq_getElem hx, Option.getD_some] at h'
        exact hg g[x] (List.getElem_mem hx) c' h'
      · rw [List.getD_eq_getElem?_getD, List.getElem?_eq_none hx, Option.getD_none] at h'
        cases h'
    · subst h'
      exact hc

theorem velInv_modifyCellAt (g : Grid) (x y : ℕ) (f : Cell → Cell) (hg : VelInv g)
    (hf : CellOk (cellAt g x y) → CellOk (f (cellAt g x y))) :
    VelInv (modifyCellAt g x y f) :=
  velInv_setCellAt g x y (f (cellAt g x y)) hg (hf (cellOk_cellAt g hg x y))

theorem velInv_modify_pres (g : Grid) (x y : ℕ) (f : Cell → Cell) (hg : VelInv g)
    (hf : ∀ c, (f c).velocity = c.velocity ∧ (f c).ty = c.ty) :
    VelInv (modifyCellAt g x y f) := by
  refine velInv_modifyCellAt g x y f hg ?_
  intro h
  constructor
  · rw [(hf _).1]
    exact h.1
  · rw [(hf _).1, (hf _).2]
    exact h.2

theorem velInv_swap_cells (g : Grid) (p q : ℕ × ℕ) (hg : VelInv g) :
    VelInv (swap_cells g p q) := by
  unfold swap_cells
  simp only []
  refine velInv_modify_pres _ _ _ _ ?_ (fun c => ⟨rfl, rfl⟩)
  refine velInv_modify_pres _ _ _ _ ?_ (fun c => ⟨rfl, rfl⟩)
  refine velInv_setCellAt _ _ _ _ ?_ (cellOk_cellAt g hg p.1 p.2)
  exact velInv_setCellAt _ _ _ _ hg (cellOk_cellAt g hg q.1 q.2)

theorem velInv_spread_to_cell (g : Grid) (p q : ℕ × ℕ) (hg : VelInv g) :
    VelInv (spread_to_cell g p q) := by
  unfold spread_to_cell
  simp only []
  refine velInv_modify_pres _ _ _ _ ?_ (fun c => ⟨rfl, rfl⟩)
  refine velInv_modify_pres _ _ _ _ ?_ (fun c => ⟨rfl, rfl⟩)
  exact velInv_setCellAt _ _ _ _ hg (cellOk_cellAt g hg p.1 p.2)

theorem velInv_fall_vel (g : Grid) (pos : ℕ × ℕ) (mv acc : ℚ) (hg : VelInv g)
    (hacc : 0 ≤ acc) (hmv0 : 0 ≤ mv)
    (hmv : mv ≤ maxVelOf (cellAt g pos.1 pos.2).ty) :
    VelInv (setVelocityAt g pos
      (qMin (qAdd (cellAt g pos.1 pos.2).velocity acc) mv)) := by
  unfold setVelocityAt
  refine velInv_modifyCellAt _ _ _ _ hg ?_
  intro h
  constructor
  · rw [qMin_eq, qAdd_eq]
    exact le_min (add_nonneg h.1 hacc) hmv0
  · rw [qMin_eq]
    exact le_trans (min_le_right _ _) hmv

theorem velInv_halve_vel (g : Grid) (pos : ℕ × ℕ) (hg : VelInv g) :
    VelInv (setVelocityAt g pos (qHalf (cellAt g pos.1 pos.2).velocity)) := by
  unfold setVelocityAt
  refine velInv_modifyCellAt _ _ _ _ hg ?_
  intro h
  constructor
  · rw [qHalf_eq]
    exact div_nonneg h.1 (by norm_num)
  · rw [qHalf_eq]
    exact le_trans (half_le_self h.1) h.2

theorem velInv_generic_fall (W H : ℕ) (g : Grid) (pos : ℕ × ℕ) (E : List CellType)
    (mv acc : ℚ) (inv : Bool) (r : Rng) (hg : VelInv g)
    (hacc : 0 ≤ acc) (hmv0 : 0 ≤ mv)
    (hmv : mv ≤ maxVelOf (cellAt g pos.1 pos.2).ty) :
    VelInv (generic_fall W H g pos E mv acc inv r).2.1 := by
  unfold generic_fall
  simp only []
  split
  · exact velInv_swap_cells _ _ _ (velInv_fall_vel g pos mv acc hg hacc hmv0 hmv)
  · split
    · split
      · exact velInv_swap_cells _ _ _ (velInv_fall_vel g pos mv acc hg hacc hmv0 hmv)
      · exact velInv_swap_cells _ _ _ (velInv_fall_vel g pos mv acc hg hacc hmv0 hmv)
    · exact velInv_swap_cells _ _ _ (velInv_fall_vel g pos mv acc hg hacc hmv0 hmv)
    · exact velInv_swap_cells _ _ _ (velInv_fall_vel g pos mv acc hg hacc hmv0 hmv)
    · exact velInv_halve_vel g pos hg

theorem velInv_generic_fluid (W H : ℕ) (g : Grid) (pos : ℕ × ℕ) (E : List CellType)
    (mv acc : ℚ) (inv : Bool) (r : Rng) (hg : VelInv g)
    (hacc : 0 ≤ acc) (hmv0 : 0 ≤ mv)
    (hmv : mv ≤ maxVelOf (cellAt g pos.1 pos.2).ty) :
    VelInv (generic_fluid W H g pos E mv acc inv r).2.1 := by
  unfold generic_fluid
  split
  · rename_i fr g1 r1 log1 heq
    have hfall := velInv_generic_fall W H g pos E mv acc inv r hg hacc hmv0 hmv
    rw [heq] at hfall
    exact hfall
  · rename_i g1 r1 log1 heq
    have hg1 : VelInv g1 := by
      have hfall := velInv_generic_fall W H g pos E mv acc inv r hg hacc hmv0 hmv
      rw [heq] at hfall
      exact hfall
    simp only []
    split
    · split
      · exact velInv_swap_cells _ _ _ hg1
      · exact velInv_swap_cells _ _ _ hg1
    · exact velInv_swap_cells _ _ _ hg1
    · exact velInv_swap_cells _ _ _ hg1
    · exact hg1

theorem velInv_fire_block (g : Grid) (x y : ℕ) (B : List CellType) (s ok : Bool)
    (nx ny : ℕ) (r : Rng) (hg : VelInv g) :
    VelInv (fire_block g x y B s ok nx ny r).2.1 := by
  unfold fire_block
  split
  · simp only []
    split
    · split
      · exact velInv_spread_to_cell _ _ _
          (velInv_modify_pres _ _ _ _ hg (fun c => ⟨rfl, rfl⟩))
      · exact hg
    · split
      · exact velInv_setCellAt _ _ _ _ hg (cellOk_fromType CellType.Steam r)
      · exact hg
  · exact hg

set_option maxHeartbeats 2000000 in
theorem velInv_update_fire (W H : ℕ) (g : Grid) (x y : ℕ) (B : List CellType) (r : Rng)
    (hg : VelInv g) : VelInv (update_fire W H g x y B r).1 := by
  unfold update_fire
  split
  rename_i f0 r0 heq0
  lift_lets
  intro should_spread
  split
  rename_i stop1 g1 r1 heq1
  have hg1 : VelInv g1 := by
    have hh := velInv_fire_block g x y B
      should_spread (in_bounds_left ((x : ℤ) - 1)) (x - 1) y r0 hg
    rw [heq1] at hh
    exact hh
  split
  · exact hg1
  ·
    split
    rename_i stop2 g2 r2 heq2
    have hg2 : VelInv g2 := by
      have hh := velInv_fire_block g1 x y B
        should_spread (in_bounds_right W (x + 1)) (x + 1) y r1 hg1
      rw [heq2] at hh
      exact hh
    split
    · exact hg2
    ·
      split
      rename_i stop3 g3 r3 heq3
      have hg3 : VelInv g3 := by
        have hh := velInv_fire_block g2 x y B
          should_spread (in_bounds_top ((y : ℤ) - 1)) x (y - 1) r2 hg2
        rw [heq3] at hh
        exact hh
      split
      · exact hg3
      ·
        split
        rename_i stop4 g4 r4 heq4
        have hg4 : VelInv g4 := by
          have hh := velInv_fire_block g3 x y B
            should_spread (in_bounds_bottom H (y + 1)) x (y + 1) r3 hg3
          rw [heq4] at hh
          exact hh
        split
        · exact hg4
        ·
          split
          rename_i stop5 g5 r5 heq5
          have hg5 : VelInv g5 := by
            have hh := velInv_fire_block g4 x y B
              should_spread (in_bounds_left ((x : ℤ) - 1) && in_bounds_top ((y : ℤ) - 1)) (x - 1) (y - 1) r4 hg4
            rw [heq5] at hh
            exact hh
          split
          · exact hg5
          ·
            split
            rename_i stop6 g6 r6 heq6
            have hg6 : VelInv g6 := by
              have hh := velInv_fire_block g5 x y B
                should_spread (in_bounds_left ((x : ℤ) - 1) && in_bounds_bottom H (y + 1)) (x - 1) (y + 1) r5 hg5
              rw [heq6] at hh
              exact hh
            split
            · exact hg6
            ·
              split
              rename_i stop7 g7 r7 heq7
              have hg7 : VelInv g7 := by
                have hh := velInv_fire_block g6 x y B
                  should_spread (in_bounds_right W (x + 1) && in_bounds_top ((y : ℤ) - 1)) (x + 1) (y - 1) r6 hg6
                rw [heq7] at hh
                exact hh
              split
              · exact hg7
              ·
                split
                rename_i stop8 g8 r8 heq8
                have hg8 : VelInv g8 := by
                  have hh := velInv_fire_block g7 x y B
                    should_spread (in_bounds_right W (x + 1) && in_bounds_bottom H (y + 1)
                      && is_empty g7 (x + 1) (y + 1) B) (x + 1) (y + 1) r7 hg7
                  rw [heq8] at hh
                  exact hh
                split
                · exact hg8
                ·
                  split
                  · exact hg8
                  · split
                    rename_i f1 r9 heqf
                    split
                    · split
                      rename_i c r10 heqc
                      refine velInv_setCellAt _ _ _ _ hg8 ?_
                      have hh := cellOk_fromType CellType.Smoke r9
                      rw [heqc] at hh
                      exact hh
                    · split
                      rename_i c r10 heqc
                      refine velInv_setCellAt _ _ _ _ hg8 ?_
                      have hh := cellOk_fromType CellType.Air r9
                      rw [heqc] at hh
                      exact hh

theorem velInv_update_sand (W H : ℕ) (g : Grid) (x y : ℕ) (E : List CellType) (r : Rng)
    (hg : VelInv g) (hty : (cellAt g x y).ty = CellType.Sand) :
    VelInv (update_sand W H g x y E r).1 := by
  unfold update_sand
  simp only []
  exact velInv_generic_fall W H g (x, y) E MAX_VELOCITY ACCELERATION false r hg
    (by decide) (by decide)
    (by show MAX_VELOCITY ≤ maxVelOf (cellAt g x y).ty; rw [hty]; decide)

theorem velInv_update_water (W H : ℕ) (g : Grid) (x y : ℕ) (E : List CellType) (r : Rng)
    (hg : VelInv g) (hty : (cellAt g x y).ty = CellType.Water) :
    VelInv (update_water W H g x y E r).1 := by
  unfold update_water
  simp only []
  split
  · refine velInv_generic_fluid W H
      (modifyCellAt g x y (fun cc =>
        { cc with color := (cell_type_color_random (cellAt g x y) (Rng.f r).2).1 }))
      (x, y) E MAX_VELOCITY ACCELERATION false
      (cell_type_color_random (cellAt g x y) (Rng.f r).2).2
      (velInv_modify_pres _ _ _ _ hg (fun c => ⟨rfl, rfl⟩)) (by decide) (by decide) ?_
    show MAX_VELOCITY ≤ maxVelOf (cellAt (modifyCellAt g x y
      (fun cc =>
        { cc with color := (cell_type_color_random (cellAt g x y) (Rng.f r).2).1 })) x y).ty
    rw [cellAt_modify_ty g x y
      (fun cc =>
        { cc with color := (cell_type_color_random (cellAt g x y) (Rng.f r).2).1 })
      (fun c => rfl), hty]
    decide
  · exact velInv_generic_fluid W H g (x, y) E MAX_VELOCITY ACCELERATION false (Rng.f r).2
      hg (by decide) (by decide)
      (by show MAX_VELOCITY ≤ maxVelOf (cellAt g x y).ty; rw [hty]; decide)

theorem velInv_update_smoke (W H : ℕ) (g : Grid) (x y : ℕ) (E : List CellType) (r : Rng)
    (hg : VelInv g) (hty : (cellAt g x y).ty = CellType.Smoke) :
    VelInv (update_smoke W H g x y E r).1 := by
  unfold update_smoke
  split
  · simp only []
    exact velInv_setCellAt _ _ _ _ hg (cellOk_fromType CellType.Air r)
  · simp only []
    refine velInv_generic_fluid W H
      (modifyCellAt (modifyCellAt g x y (fun c => { c with lifetime := c.lifetime - 1 })) x y
        (fun c => { c with color := (interpolate_color SMOKE_COLOR_LIGHT SMOKE_COLOR_DARK
          (Rat.divInt (c.lifetime : ℤ) (SMOKE_LIFETIME : ℤ))) }))
      (x, y) E SMOKE_MAX_VELOCITY SMOKE_ACCELERATION true r
      (velInv_modify_pres _ _ _ _
        (velInv_modify_pres _ _ _ _ hg (fun c => ⟨rfl, rfl⟩)) (fun c => ⟨rfl, rfl⟩))
      (by decide) (by decide) ?_
    show SMOKE_MAX_VELOCITY ≤ maxVelOf (cellAt
      (modifyCellAt (modifyCellAt g x y (fun c => { c with lifetime := c.lifetime - 1 })) x y
        (fun c => { c with color := (interpolate_color SMOKE_COLOR_LIGHT SMOKE_COLOR_DARK
          (Rat.divInt (c.lifetime : ℤ) (SMOKE_LIFETIME : ℤ))) })) x y).ty
    rw [cellAt_modify_ty _ x y
      (fun c => { c with color := (interpolate_color SMOKE_COLOR_LIGHT SMOKE_COLOR_DARK
        (Rat.divInt (c.lifetime : ℤ) (SMOKE_LIFETIME : ℤ))) }) (fun c => rfl),
      cellAt_modify_ty g x y (fun c => { c with lifetime := c.lifetime - 1 }) (fun c => rfl),
      hty]
    decide

theorem velInv_update_steam (W H : ℕ) (g : Grid) (x y : ℕ) (E : List CellType) (r : Rng)
    (hg : VelInv g) (hty : (cellAt g x y).ty = CellType.Steam) :
    VelInv (update_steam W H g x y E r).1 := by
  unfold update_steam
  split
  · simp only []
    split
    · exact velInv_setCellAt _ _ _ _ hg (cellOk_fromType CellType.Water _)
    · exact velInv_setCellAt _ _ _ _ hg (cellOk_fromType CellType.Air _)
  · simp only []
    refine velInv_generic_fluid W H
      (modifyCellAt (modifyCellAt g x y (fun c => { c with lifetime := c.lifetime - 1 })) x y
        (fun c => { c with color := (interpolate_color STEAM_COLOR_LIGHT STEAM_COLOR_DARK
          (Rat.divInt (c.lifetime : ℤ) (STEAM_LIFETIME : ℤ))) }))
      (x, y) E STEAM_MAX_VELOCITY STEAM_ACCELERATION true r
      (velInv_modify_pres _ _ _ _
        (velInv_modify_pres _ _ _ _ hg (fun c => ⟨rfl, rfl⟩)) (fun c => ⟨rfl, rfl⟩))
      (by decide) (by decide) ?_
    show STEAM_MAX_VELOCITY ≤ maxVelOf (cellAt
      (modifyCellAt (modifyCellAt g x y (fun c => { c with lifetime := c.lifetime - 1 })) x y
        (fun c => { c with color := (interpolate_color STEAM_COLOR_LIGHT STEAM_COLOR_DARK
          (Rat.divInt (c.lifetime : ℤ) (STEAM_LIFETIME : ℤ))) })) x y).ty
    rw [cellAt_modify_ty _ x y
      (fun c => { c with color := (interpolate_color STEAM_COLOR_LIGHT STEAM_COLOR_DARK
        (Rat.divInt (c.lifetime : ℤ) (STEAM_LIFETIME : ℤ))) }) (fun c => rfl),
      cellAt_modify_ty g x y (fun c => { c with lifetime := c.lifetime - 1 }) (fun c => rfl),
      hty]
    decide

theorem velInv_update_cell (W H i : ℕ) (g : Grid) (x y : ℕ) (r : Rng) (hg : VelInv g) :
    VelInv (update_cell W H i g x y r).1 := by
  unfold update_cell
  split
  · exact hg
  · simp only []
    by_cases hm : (cellAt g x y).moved = true
    · rw [if_pos hm]
      exact hg
    · rw [if_neg hm]
      split
      · rename_i hty
        exact velInv_update_sand W H g x y _ r hg hty
      · rename_i hty
        exact velInv_update_water W H g x y _ r hg hty
      · exact velInv_update_fire W H g x y _ r hg
      · rename_i hty
        exact velInv_update_smoke W H g x y _ r hg hty
      · rename_i hty
        exact velInv_update_steam W H g x y _ r hg hty
      · exact hg

theorem velInv_resetMoved (g : Grid) (hg : VelInv g) : VelInv (resetMoved g) := by
  intro col hcol c hc
  rcases List.mem_map.1 hcol with ⟨col0, hcol0, rfl⟩
  rcases List.mem_map.1 hc with ⟨c0, hc0, rfl⟩
  exact hg col0 hcol0 c0 hc0

theorem velInv_update_cells (W H : ℕ) (g : Grid) (r : Rng) (hg : VelInv g) :
    VelInv (update_cells W H g r).1 := by
  have hfold : ∀ (L : List (ℕ × ℕ × ℕ)) (s : Grid × Rng × List SwapEv), VelInv s.1 →
      VelInv (L.foldl (update_cells_step W H) s).1 := by
    intro L
    induction L with
    | nil => exact fun s h => h
    | cons t L ih =>
      intro s hs
      refine ih (update_cells_step W H s t) ?_
      rcases s with ⟨sg, sr, slog⟩
      unfold update_cells_step
      simp only []
      exact velInv_update_cell W H t.1 sg t.2.1 t.2.2 sr hs
  unfold update_cells
  exact velInv_resetMoved _ (hfold (visitList W H) (g, r, []) hg)

theorem velInv_put_cell_place (g : Grid) (p : ℕ × ℕ) (sel : CellType) (r : Rng)
    (hg : VelInv g) : VelInv (put_cell_place g p sel r).1 := by
  unfold put_cell_place
  split
  · simp only []
    exact velInv_setCellAt _ _ _ _ hg (cellOk_fromType sel r)
  · exact hg

theorem velInv_put_cell_step (sel : CellType) (s : Grid × Rng) (t : ℕ × ℕ)
    (hs : VelInv s.1) : VelInv (put_cell_step sel s t).1 := by
  unfold put_cell_step
  split
  all_goals
    first
    | exact velInv_put_cell_place _ _ _ _ hs
    | (simp only []
       split
       · exact hs
       · exact velInv_put_cell_place _ _ _ _ hs)

theorem velInv_put_cell (W H : ℕ) (g : Grid) (sel : CellType) (cp : ℕ × ℕ) (rad : ℕ)
    (r : Rng) (hg : VelInv g) : VelInv (put_cell W H g sel cp rad r).1 := by
  have hfold : ∀ (L : List (ℕ × ℕ)) (s : Grid × Rng), VelInv s.1 →
      VelInv (L.foldl (put_cell_step sel) s).1 := by
    intro L
    induction L with
    | nil => exact fun s h => h
    | cons t L ih => exact fun s hs => ih _ (velInv_put_cell_step sel s t hs)
  exact hfold _ (g, r) hg

theorem velInv_remove_cells (W H : ℕ) (g : Grid) (cp : ℕ × ℕ) (rad : ℕ) (r : Rng)
    (hg : VelInv g) : VelInv (remove_cells W H g cp rad r).1 := by
  have hfold : ∀ (L : List (ℕ × ℕ)) (s : Grid × Rng), VelInv s.1 →
      VelInv (L.foldl (fun (s : Grid × Rng) p =>
        let (c, r1) := Cell.fromType CellType.Air s.2
        (setCellAt s.1 p.1 p.2 c, r1)) s).1 := by
    intro L
    induction L with
    | nil => exact fun s h => h
    | cons t L ih =>
      intro s hs
      exact ih _ (velInv_setCellAt _ _ _ _ hs (cellOk_fromType CellType.Air s.2))
  exact hfold _ (g, r) hg

/-- C6: the velocity invariant `0 ≤ velocity ≤ max_velocity(material)`
(with the cap 10 for solids and liquids, 2 for Smoke and Steam) holds for
every freshly constructed cell and is preserved by every tick
(`update_cells`), every paint (`put_cell`) and every erase
(`remove_cells`), hence it holds for every cell at every point in time. -/
theorem velocity_invariant :
    (∀ (ty : CellType) (r : Rng), CellOk (Cell.fromType ty r).1) ∧
    (∀ (W H : ℕ) (g : Grid) (r : Rng), VelInv g → VelInv (update_cells W H g r).1) ∧
    (∀ (W H : ℕ) (g : Grid) (sel : CellType) (cp : ℕ × ℕ) (rad : ℕ) (r : Rng),
      VelInv g → VelInv (put_cell W H g sel cp rad r).1) ∧
    (∀ (W H : ℕ) (g : Grid) (cp : ℕ × ℕ) (rad : ℕ) (r : Rng),
      VelInv g → VelInv (remove_cells W H g cp rad r).1) :=
  ⟨cellOk_fromType,
   fun W H g r hg => velInv_update_cells W H g r hg,
   fun W H g sel cp rad r hg => velInv_put_cell W H g sel cp rad r hg,
   fun W H g cp rad r hg => velInv_remove_cells W H g cp rad r hg⟩

theorem velocity_invariant_witness :
    VelInv (update_cells 1 3 gridSandTop (constRng 1 false 0)).1 :=
  velocity_invariant.2.1 1 3 gridSandTop (constRng 1 false 0) (by decide)

end SandSim
